import Mathlib

/-!
Verification of the sma-proto SMA Speedwire codec.

This file shallowly embeds the wire codec of the sma-proto Rust library:
byte buffers are `List Nat` (each element a byte value `< 256`), a read
cursor is the unconsumed suffix of the datagram, and a write cursor is the
pair of a capacity and the bytes written so far.  Machine integers are
embedded as `Nat` with explicit `% 2^w` at the points where the Rust code
relies on wrapping (release-profile) arithmetic; such points are marked in
comments, since a debug build would panic there instead.  Fallible Rust
functions returning `Result<T, Error>` become `Except Error T`.

`Error.BufferTooSmall` carries `(remaining bytes, bytes required)` relative
to the current cursor position; the Rust code reports the absolute buffer
length and absolute required position.  The two coincide at the start of a
datagram (where every theorem below observes this error), and no theorem
inspects these fields at an interior position.
-/

namespace SmaProto

/-- Protocol error kinds, from src/error.rs. -/
inductive Error where
  | BufferTooSmall (size expected : Nat)
  | BufferNotConsumed (trailing : Nat)
  | InvalidFourCC (fourcc : Nat)
  | InvalidStartTagLen (len : Nat)
  | InvalidStartTag (tag : Nat)
  | InvalidGroup (group : Nat)
  | UnsupportedVersion (version : Nat)
  | UnsupportedProtocol (protocol : Nat)
  | InvalidPadding (padding : Nat)
  | UnsupportedObisId (id : Nat)
  | InvalidWordcount (wordcount : Nat)
  | UnsupportedCommandClass (cls : Nat)
  | UnsupportedOpcode (opcode : Nat)
  | PayloadTooLarge (len : Nat)
deriving DecidableEq, Repr

/-- Result type of codec operations, from src/error.rs. -/
abbrev Result (α : Type) := Except Error α

instance {ε α : Type} [DecidableEq ε] [DecidableEq α] :
    DecidableEq (Except ε α)
  | .ok a, .ok b => decidable_of_iff (a = b) (by simp)
  | .ok _, .error _ => .isFalse (by simp)
  | .error _, .ok _ => .isFalse (by simp)
  | .error e, .error f => decidable_of_iff (e = f) (by simp)

/-! Byte-level encoders: the byte lists produced by the cursor write
primitives of src/cursor.rs for each width and endianness. -/

/-- Big-endian bytes of a 16 bit value. -/
def be16 (v : Nat) : List Nat := [v / 256 % 256, v % 256]

/-- Big-endian bytes of a 24 bit value. -/
def be24 (v : Nat) : List Nat := [v / 65536 % 256, v / 256 % 256, v % 256]

/-- Big-endian bytes of a 32 bit value. -/
def be32 (v : Nat) : List Nat :=
  [v / 16777216 % 256, v / 65536 % 256, v / 256 % 256, v % 256]

/-- Big-endian bytes of a 64 bit value. -/
def be64 (v : Nat) : List Nat := be32 (v / 4294967296) ++ be32 v

/-- Little-endian bytes of a 16 bit value. -/
def le16 (v : Nat) : List Nat := [v % 256, v / 256 % 256]

/-- Little-endian bytes of a 32 bit value. -/
def le32 (v : Nat) : List Nat :=
  [v % 256, v / 256 % 256, v / 65536 % 256, v / 16777216 % 256]

/-- Little-endian bytes of a 64 bit value. -/
def le64 (v : Nat) : List Nat := le32 v ++ le32 (v / 4294967296)

/-! Read primitives over the unconsumed suffix, from src/cursor.rs.
Out-of-bounds reads panic in Rust; every call below is guarded by a prior
`check_remaining`, so the catch-all branches are unreachable. -/

/-- Cursor `read_u8`. -/
def rdU8 : List Nat → Nat × List Nat
  | b :: r => (b, r)
  | [] => (0, [])

/-- Cursor `read_u16::<BigEndian>`. -/
def rdU16BE : List Nat → Nat × List Nat
  | b0 :: b1 :: r => (256 * b0 + b1, r)
  | _ => (0, [])

/-- Cursor `read_u24::<BigEndian>`. -/
def rdU24BE : List Nat → Nat × List Nat
  | b0 :: b1 :: b2 :: r => (65536 * b0 + 256 * b1 + b2, r)
  | _ => (0, [])

/-- Cursor `read_u32::<BigEndian>`. -/
def rdU32BE : List Nat → Nat × List Nat
  | b0 :: b1 :: b2 :: b3 :: r =>
    (16777216 * b0 + 65536 * b1 + 256 * b2 + b3, r)
  | _ => (0, [])

/-- Cursor `read_u64::<BigEndian>`. -/
def rdU64BE : List Nat → Nat × List Nat
  | b0 :: b1 :: b2 :: b3 :: b4 :: b5 :: b6 :: b7 :: r =>
    (72057594037927936 * b0 + 281474976710656 * b1 + 1099511627776 * b2 +
      4294967296 * b3 + 16777216 * b4 + 65536 * b5 + 256 * b6 + b7, r)
  | _ => (0, [])

/-- Cursor `read_u16::<LittleEndian>`. -/
def rdU16LE : List Nat → Nat × List Nat
  | b0 :: b1 :: r => (b0 + 256 * b1, r)
  | _ => (0, [])

/-- Cursor `read_u32::<LittleEndian>`. -/
def rdU32LE : List Nat → Nat × List Nat
  | b0 :: b1 :: b2 :: b3 :: r =>
    (b0 + 256 * b1 + 65536 * b2 + 16777216 * b3, r)
  | _ => (0, [])

/-- Cursor `read_u64::<LittleEndian>`. -/
def rdU64LE : List Nat → Nat × List Nat
  | b0 :: b1 :: b2 :: b3 :: b4 :: b5 :: b6 :: b7 :: r =>
    (b0 + 256 * b1 + 65536 * b2 + 16777216 * b3 + 4294967296 * b4 +
      1099511627776 * b5 + 281474976710656 * b6 + 72057594037927936 * b7, r)
  | _ => (0, [])

/-- Cursor `read_bytes` into a slice of length `n`. -/
def rdBytes (n : Nat) (r : List Nat) : List Nat × List Nat :=
  (r.take n, r.drop n)

/-- Cursor `peek_u16::<BigEndian>` at an offset (no advance). -/
def peekU16BE (r : List Nat) (off : Nat) : Nat := (rdU16BE (r.drop off)).1

/-- Cursor `peek_u24::<BigEndian>` at an offset (no advance). -/
def peekU24BE (r : List Nat) (off : Nat) : Nat := (rdU24BE (r.drop off)).1

/-- Cursor `peek_u32::<BigEndian>` at an offset (no advance). -/
def peekU32BE (r : List Nat) (off : Nat) : Nat := (rdU32BE (r.drop off)).1

/-- Cursor `check_remaining` on the read side, from src/cursor.rs. -/
def checkRemaining (r : List Nat) (expected : Nat) : Result Unit :=
  if r.length < expected then .error (.BufferTooSmall r.length expected)
  else .ok ()

/-- Write cursor: a buffer capacity and the prefix written so far
(the cursor position is `out.length`). -/
structure WCursor where
  cap : Nat
  out : List Nat
deriving DecidableEq, Repr

/-- Remaining space of a write cursor. -/
@[simp]
def WCursor.remaining (w : WCursor) : Nat := w.cap - w.out.length

/-- Cursor `check_remaining` on the write side. -/
def WCursor.checkRemaining (w : WCursor) (expected : Nat) : Result Unit :=
  if w.remaining < expected then
    .error (.BufferTooSmall w.cap (w.out.length + expected))
  else .ok ()

/-- Cursor `write_u8`. -/
def WCursor.wrU8 (w : WCursor) (v : Nat) : WCursor :=
  { w with out := w.out ++ [v % 256] }

/-- Cursor `write_u16::<BigEndian>`. -/
def WCursor.wrBE16 (w : WCursor) (v : Nat) : WCursor :=
  { w with out := w.out ++ be16 v }

/-- Cursor `write_u24::<BigEndian>`. -/
def WCursor.wrBE24 (w : WCursor) (v : Nat) : WCursor :=
  { w with out := w.out ++ be24 v }

/-- Cursor `write_u32::<BigEndian>`. -/
def WCursor.wrBE32 (w : WCursor) (v : Nat) : WCursor :=
  { w with out := w.out ++ be32 v }

/-- Cursor `write_u64::<BigEndian>`. -/
def WCursor.wrBE64 (w : WCursor) (v : Nat) : WCursor :=
  { w with out := w.out ++ be64 v }

/-- Cursor `write_u16::<LittleEndian>`. -/
def WCursor.wrLE16 (w : WCursor) (v : Nat) : WCursor :=
  { w with out := w.out ++ le16 v }

/-- Cursor `write_u32::<LittleEndian>`. -/
def WCursor.wrLE32 (w : WCursor) (v : Nat) : WCursor :=
  { w with out := w.out ++ le32 v }

/-- Cursor `write_u64::<LittleEndian>`. -/
def WCursor.wrLE64 (w : WCursor) (v : Nat) : WCursor :=
  { w with out := w.out ++ le64 v }

/-- Cursor `write_bytes` (byte slices are already reduced mod 256 in Rust). -/
def WCursor.wrBytes (w : WCursor) (src : List Nat) : WCursor :=
  { w with out := w.out ++ src.map (· % 256) }

/-- SMA speedwire communication endpoint, from src/packet.rs. -/
structure SmaEndpoint where
  susy_id : Nat
  serial : Nat
deriving DecidableEq, Repr

/-- Serialized length of an endpoint. -/
@[simp]
def SmaEndpoint.LENGTH : Nat := 6

/-- The library dummy endpoint `SmaEndpoint::dummy`. -/
def SmaEndpoint.dummy : SmaEndpoint := { susy_id := 0xDEAD, serial := 0xDEADBEEF }

/-- The broadcast endpoint `SmaEndpoint::broadcast`. -/
def SmaEndpoint.broadcast : SmaEndpoint :=
  { susy_id := 0xFFFF, serial := 0xFFFFFFFF }

/-- Field bounds of the Rust `u16`/`u32` endpoint fields. -/
def SmaEndpoint.Wf (e : SmaEndpoint) : Prop :=
  e.susy_id < 65536 ∧ e.serial < 4294967296

instance (e : SmaEndpoint) : Decidable e.Wf := by unfold SmaEndpoint.Wf; infer_instance

/-- `SmaEndpoint::serialize`, from src/packet.rs. -/
def SmaEndpoint.serialize (e : SmaEndpoint) (w : WCursor) : Result WCursor := do
  w.checkRemaining SmaEndpoint.LENGTH
  let w := w.wrBE16 e.susy_id
  let w := w.wrBE32 e.serial
  return w

/-- `SmaEndpoint::deserialize`, from src/packet.rs. -/
def SmaEndpoint.deserialize (r : List Nat) : Result (SmaEndpoint × List Nat) := do
  checkRemaining r SmaEndpoint.LENGTH
  let (susy_id, r) := rdU16BE r
  let (serial, r) := rdU32BE r
  return ({ susy_id, serial }, r)

/-- Common SMA speedwire packet header, from src/packet.rs. -/
structure SmaPacketHeader where
  data_len : Nat
  protocol : Nat
deriving DecidableEq, Repr

namespace SmaPacketHeader

/-- Serialized length of the common packet header. -/
@[simp]
def LENGTH : Nat := 18

/-- The SMA fourCC magic value. -/
@[simp]
def SMA_FOURCC : Nat := 0x534D4100

/-- Constant start tag length field value. -/
@[simp]
def START_TAG_LEN : Nat := 4

/-- Constant start tag value. -/
@[simp]
def START_TAG : Nat := 0x02A0

/-- Default group ID. -/
@[simp]
def DEFAULT_GROUP : Nat := 1

/-- SMA inverter sub-protocol ID. -/
@[simp]
def SMA_PROTOCOL_INV : Nat := 0x6065

/-- SMA energymeter sub-protocol ID. -/
@[simp]
def SMA_PROTOCOL_EM : Nat := 0x6069

/-- SMA speedwire version field value. -/
@[simp]
def SMA_VERSION : Nat := 0x10

/-- `SmaPacketHeader::check_protocol`. -/
def check_protocol (h : SmaPacketHeader) (protocol : Nat) : Result Unit :=
  if h.protocol ≠ protocol then .error (.UnsupportedProtocol h.protocol)
  else .ok ()

/-- `SmaPacketHeader::serialize`. -/
def serialize (h : SmaPacketHeader) (w : WCursor) : Result WCursor := do
  w.checkRemaining LENGTH
  let w := w.wrBE32 SMA_FOURCC
  let w := w.wrBE16 (LENGTH / 4)
  let w := w.wrBE16 START_TAG
  let w := w.wrBE32 DEFAULT_GROUP
  let w := w.wrBE16 (h.data_len + 2)
  let w := w.wrBE16 SMA_VERSION
  let w := w.wrBE16 h.protocol
  return w

/-- `SmaPacketHeader::deserialize`.  The wire data-length field is reduced
by 2 with u16 arithmetic: `(x + 65534) % 65536` is the release-profile
wrapping result of `x - 2`; for `x < 2` a debug build panics on the
underflow instead. -/
def deserialize (r : List Nat) : Result (SmaPacketHeader × List Nat) := do
  checkRemaining r LENGTH
  let (fourcc, r) := rdU32BE r
  if fourcc ≠ SMA_FOURCC then
    throw (.InvalidFourCC fourcc)
  let (len, r) := rdU16BE r
  if len ≠ START_TAG_LEN then
    throw (.InvalidStartTagLen len)
  let (tag, r) := rdU16BE r
  if tag ≠ START_TAG then
    throw (.InvalidStartTag tag)
  let (group, r) := rdU32BE r
  if group ≠ DEFAULT_GROUP then
    throw (.InvalidGroup group)
  let (rawLen, r) := rdU16BE r
  let data_len := (rawLen + 65534) % 65536
  let (version, r) := rdU16BE r
  if version ≠ SMA_VERSION then
    throw (.UnsupportedVersion version)
  let (protocol, r) := rdU16BE r
  return ({ data_len, protocol }, r)

end SmaPacketHeader

namespace SmaPacketFooter

/-- Serialized length of a short SMA speedwire packet footer. -/
@[simp]
def LENGTH_SHORT : Nat := 2

/-- Serialized length of a normal SMA speedwire packet footer. -/
@[simp]
def LENGTH : Nat := 4

/-- `SmaPacketFooter::serialize`, from src/packet.rs. -/
def serialize (w : WCursor) : Result WCursor := do
  w.checkRemaining LENGTH
  return w.wrBE32 0

/-- The `while buffer.remaining() >= Self::LENGTH` loop of
`SmaPacketFooter::deserialize`: consume 32-bit words, requiring each
to be zero. -/
def padLoop : List Nat → Result (List Nat)
  | b0 :: b1 :: b2 :: b3 :: r =>
    let padding := 16777216 * b0 + 65536 * b1 + 256 * b2 + b3
    if padding ≠ 0 then .error (.InvalidPadding padding)
    else padLoop r
  | r => .ok r

/-- `SmaPacketFooter::deserialize`, from src/packet.rs. -/
def deserialize (r : List Nat) : Result Unit := do
  checkRemaining r LENGTH_SHORT
  let r ← padLoop r
  let r ←
    if r.length = LENGTH_SHORT then
      let (padding, r) := rdU16BE r
      if padding ≠ 0 then throw (.InvalidPadding padding) else pure r
    else pure r
  if r.length ≠ 0 then
    throw (.BufferNotConsumed r.length)
  return ()

end SmaPacketFooter

/-- SMA energymeter sub-protocol header, from src/energymeter/header.rs. -/
structure SmaEmHeader where
  src : SmaEndpoint
  timestamp_ms : Nat
deriving DecidableEq, Repr

namespace SmaEmHeader

/-- Serialized length of the energymeter sub-protocol header. -/
@[simp]
def LENGTH : Nat := 10

/-- Field bounds of the Rust types of the energymeter header. -/
def Wf (h : SmaEmHeader) : Prop := h.src.Wf ∧ h.timestamp_ms < 4294967296

/-- `SmaEmHeader::serialize`. -/
def serialize (h : SmaEmHeader) (w : WCursor) : Result WCursor := do
  w.checkRemaining LENGTH
  let w ← h.src.serialize w
  let w := w.wrBE32 h.timestamp_ms
  return w

/-- `SmaEmHeader::deserialize`. -/
def deserialize (r : List Nat) : Result (SmaEmHeader × List Nat) := do
  checkRemaining r LENGTH
  let (src, r) ← SmaEndpoint.deserialize r
  let (timestamp_ms, r) := rdU32BE r
  return ({ src, timestamp_ms }, r)

end SmaEmHeader

/-- A tuple consisting of an OBIS ID and its value,
from src/energymeter/obis.rs. -/
structure ObisValue where
  id : Nat
  value : Nat
deriving DecidableEq, Repr

namespace ObisValue

/-- Minimum serialized length of one OBIS value. -/
@[simp]
def LENGTH_MIN : Nat := 8

/-- Maximum serialized length of one OBIS value. -/
@[simp]
def LENGTH_MAX : Nat := 12

/-- `ObisValue::serialized_len`. -/
def serialized_len (o : ObisValue) : Nat :=
  if o.id = 0x90000000 ∨ o.id &&& 0xFF00 = 0x0400 then 8
  else if o.id &&& 0xFF00 = 0x0800 then 12
  else 0

/-- `ObisValue::validate`. -/
def validate (o : ObisValue) : Result Unit :=
  if o.id = 0x90000000 ∨ o.id &&& 0xFF00 = 0x0400 ∨ o.id &&& 0xFF00 = 0x0800
  then .ok ()
  else .error (.UnsupportedObisId o.id)

/-- An OBIS id of one of the three accepted families. -/
def ValidId (id : Nat) : Prop :=
  id = 0x90000000 ∨ id &&& 0xFF00 = 0x0400 ∨ id &&& 0xFF00 = 0x0800

instance (id : Nat) : Decidable (ValidId id) := by unfold ValidId; infer_instance

/-- Field bounds and id validity of an OBIS value: the accepted families
store a `u32` value except the `0x0800` family, which stores a `u64`. -/
def Wf (o : ObisValue) : Prop :=
  ValidId o.id ∧ o.id < 4294967296 ∧
    o.value < (if o.id &&& 0xFF00 = 0x0800 then 18446744073709551616
               else 4294967296)

instance (o : ObisValue) : Decidable o.Wf := by unfold Wf; infer_instance

/-- `ObisValue::serialize`. -/
def serialize (o : ObisValue) (w : WCursor) : Result WCursor := do
  o.validate
  w.checkRemaining o.serialized_len
  let w := w.wrBE32 o.id
  let w :=
    if o.id = 0x90000000 ∨ o.id &&& 0xFF00 = 0x0400 then w.wrBE32 o.value
    else if o.id &&& 0xFF00 = 0x0800 then w.wrBE64 o.value
    else w
  return w

/-- `ObisValue::deserialize`. -/
def deserialize (r : List Nat) : Result (ObisValue × List Nat) := do
  checkRemaining r LENGTH_MIN
  let (id, r) := rdU32BE r
  let (value, r) ←
    if id = 0x90000000 ∨ id &&& 0xFF00 = 0x0400 then
      pure (rdU32BE r)
    else if id &&& 0xFF00 = 0x0800 then do
      checkRemaining r 8
      pure (rdU64BE r)
    else
      throw (.UnsupportedObisId id)
  let obj : ObisValue := { id, value }
  obj.validate
  return (obj, r)

end ObisValue

/-- A logical SMA energymeter message, from src/energymeter/message.rs.
The payload container is the bounded sequence of the data model
(capacity `MAX_RECORD_COUNT`), embedded as a plain list whose capacity
is enforced by the (de)serializers. -/
structure SmaEmMessage where
  src : SmaEndpoint
  timestamp_ms : Nat
  payload : List ObisValue
deriving DecidableEq, Repr

namespace SmaEmMessage

/-- Maximum number of OBIS values in the payload. -/
@[simp]
def MAX_RECORD_COUNT : Nat := 80

/-- Minimum serialized length of the energymeter message. -/
@[simp]
def LENGTH_MIN : Nat :=
  SmaPacketHeader.LENGTH + SmaEmHeader.LENGTH + SmaPacketFooter.LENGTH

/-- Maximum serialized length of the energymeter message. -/
@[simp]
def LENGTH_MAX : Nat := LENGTH_MIN + MAX_RECORD_COUNT * ObisValue.LENGTH_MAX

/-- `SmaEmMessageBase::serialized_len`. -/
def serialized_len (m : SmaEmMessage) : Nat :=
  LENGTH_MIN + (m.payload.map ObisValue.serialized_len).sum

/-- Field bounds of an energymeter message. -/
def Wf (m : SmaEmMessage) : Prop :=
  m.src.Wf ∧ m.timestamp_ms < 4294967296 ∧ ∀ o ∈ m.payload, o.Wf

instance (m : SmaEmMessage) : Decidable m.Wf := by
  unfold Wf; infer_instance

/-- The per-OBIS-value body of the serialization loop of
`SmaEmMessageBase::serialize`. -/
def serPayload : List ObisValue → WCursor → Result WCursor
  | [], w => .ok w
  | o :: rest, w => do
    o.validate
    let w ← o.serialize w
    serPayload rest w

/-- `SmaEmMessageBase::serialize`. -/
def serialize (m : SmaEmMessage) (w : WCursor) : Result WCursor := do
  if m.payload.length > MAX_RECORD_COUNT then
    throw (.PayloadTooLarge m.payload.length)
  let len := m.serialized_len
  w.checkRemaining len
  let header : SmaPacketHeader :=
    { data_len := len - SmaPacketHeader.LENGTH - SmaPacketFooter.LENGTH,
      protocol := SmaPacketHeader.SMA_PROTOCOL_EM }
  let em_header : SmaEmHeader := { src := m.src, timestamp_ms := m.timestamp_ms }
  let w ← header.serialize w
  let w ← em_header.serialize w
  let w ← serPayload m.payload w
  SmaPacketFooter.serialize w

/-- The record loop of `SmaEmMessageBase::deserialize`: consume OBIS values
while `remaining - padding_len >= 8`.  `left` counts the free capacity of
the bounded payload container, whose failing `push` produces
`PayloadTooLarge`.  The `left = 0` guard is reached after exactly
`MAX_RECORD_COUNT` pushes, so recursion on `left` mirrors the Rust loop
on bounded containers. -/
def desPayload (padding_len : Nat) : Nat → List ObisValue → List Nat →
    Result (List ObisValue × List Nat)
  | left, acc, r =>
    if r.length - padding_len ≥ ObisValue.LENGTH_MIN then do
      let (obis, r) ← ObisValue.deserialize r
      obis.validate
      match left with
      | 0 => throw (.PayloadTooLarge (acc.length + 1))
      | left + 1 => desPayload padding_len left (acc ++ [obis]) r
    else
      .ok (acc, r)

/-- `SmaEmMessageBase::deserialize`.  `remaining - padding_len` in the
loop guard is usize subtraction in Rust; when a crafted record overruns
into the padding the Rust build panics or wraps, while `Nat` subtraction
truncates to zero and exits the loop — no theorem below exercises such
inputs. -/
def deserialize (bs : List Nat) : Result SmaEmMessage := do
  checkRemaining bs LENGTH_MIN
  let (header, r) ← SmaPacketHeader.deserialize bs
  header.check_protocol SmaPacketHeader.SMA_PROTOCOL_EM
  checkRemaining r header.data_len
  let padding_len := r.length - header.data_len
  let (em_header, r) ← SmaEmHeader.deserialize r
  let (payload, r) ← desPayload padding_len MAX_RECORD_COUNT [] r
  SmaPacketFooter.deserialize r
  return { src := em_header.src, timestamp_ms := em_header.timestamp_ms,
           payload }

end SmaEmMessage

/-- SMA inverter sub-protocol packet and fragment counter,
from src/inverter/counter.rs. -/
structure SmaInvCounter where
  fragment_id : Nat
  packet_id : Nat
  first_fragment : Bool
deriving DecidableEq, Repr

namespace SmaInvCounter

/-- Serialized length of the counter. -/
@[simp]
def LENGTH : Nat := 4

/-- The first-fragment flag bit of the wire packet-id field. -/
@[simp]
def FIRST_FRAGMENT_BIT : Nat := 0x8000

/-- Field bounds of a counter: the packet id occupies the low 15 bits of
the wire field, the 0x8000 bit being the first-fragment flag. -/
def Wf (c : SmaInvCounter) : Prop :=
  c.fragment_id < 65536 ∧ c.packet_id < 32768

instance (c : SmaInvCounter) : Decidable c.Wf := by unfold Wf; infer_instance

/-- `SmaInvCounter::serialize`. -/
def serialize (c : SmaInvCounter) (w : WCursor) : Result WCursor := do
  w.checkRemaining LENGTH
  let packet_id :=
    if c.first_fragment then c.packet_id ||| FIRST_FRAGMENT_BIT
    else c.packet_id
  let w := w.wrLE16 c.fragment_id
  let w := w.wrLE16 packet_id
  return w

/-- `SmaInvCounter::deserialize`. -/
def deserialize (r : List Nat) : Result (SmaInvCounter × List Nat) := do
  checkRemaining r LENGTH
  let (fragment_id, r) := rdU16LE r
  let (raw_packet_id, r) := rdU16LE r
  let (packet_id, first_fragment) :=
    if raw_packet_id &&& FIRST_FRAGMENT_BIT ≠ 0 then
      (raw_packet_id &&& 0x7FFF, true)
    else
      (raw_packet_id, false)
  return ({ fragment_id, packet_id, first_fragment }, r)

end SmaInvCounter

/-- A speedwire command word, from src/inverter/cmd.rs. -/
structure SmaCmdWord where
  channel : Nat
  opcode : Nat
deriving DecidableEq, Repr

namespace SmaCmdWord

/-- Serialized length of the command word. -/
@[simp]
def LENGTH : Nat := 4

/-- Field bounds of a command word (`u8` channel, 24 bit opcode). -/
def Wf (c : SmaCmdWord) : Prop := c.channel < 256 ∧ c.opcode < 16777216

/-- `SmaCmdWord::serialize`. -/
def serialize (c : SmaCmdWord) (w : WCursor) : Result WCursor := do
  w.checkRemaining LENGTH
  let w := w.wrU8 c.channel
  let w := w.wrBE24 c.opcode
  return w

/-- `SmaCmdWord::deserialize`. -/
def deserialize (r : List Nat) : Result (SmaCmdWord × List Nat) := do
  checkRemaining r LENGTH
  let (channel, r) := rdU8 r
  let (opcode, r) := rdU24BE r
  return ({ channel, opcode }, r)

end SmaCmdWord

/-- SMA inverter sub-protocol header, from src/inverter/header.rs. -/
structure SmaInvHeader where
  wordcount : Nat
  cls : Nat
  dst : SmaEndpoint
  dst_ctrl : Nat
  src : SmaEndpoint
  src_ctrl : Nat
  error_code : Nat
  counters : SmaInvCounter
  cmd : SmaCmdWord
deriving DecidableEq, Repr

namespace SmaInvHeader

/-- Serialized length of the inverter sub-protocol header. -/
@[simp]
def LENGTH : Nat := 28

/-- Field bounds of the inverter sub-protocol header. -/
def Wf (h : SmaInvHeader) : Prop :=
  h.wordcount < 256 ∧ h.cls < 256 ∧ h.dst.Wf ∧ h.dst_ctrl < 65536 ∧
    h.src.Wf ∧ h.src_ctrl < 65536 ∧ h.error_code < 65536 ∧ h.counters.Wf ∧
    h.cmd.Wf

/-- `SmaInvHeader::serialize`. -/
def serialize (h : SmaInvHeader) (w : WCursor) : Result WCursor := do
  w.checkRemaining LENGTH
  let w := w.wrU8 h.wordcount
  let w := w.wrU8 h.cls
  let w ← h.dst.serialize w
  let w := w.wrBE16 h.dst_ctrl
  let w ← h.src.serialize w
  let w := w.wrBE16 h.src_ctrl
  let w := w.wrBE16 h.error_code
  let w ← h.counters.serialize w
  let w ← h.cmd.serialize w
  return w

/-- `SmaInvHeader::deserialize`. -/
def deserialize (r : List Nat) : Result (SmaInvHeader × List Nat) := do
  checkRemaining r LENGTH
  let (wordcount, r) := rdU8 r
  let (cls, r) := rdU8 r
  let (dst, r) ← SmaEndpoint.deserialize r
  let (dst_ctrl, r) := rdU16BE r
  let (src, r) ← SmaEndpoint.deserialize r
  let (src_ctrl, r) := rdU16BE r
  let (error_code, r) := rdU16BE r
  let (counters, r) ← SmaInvCounter.deserialize r
  let (cmd, r) ← SmaCmdWord.deserialize r
  return ({ wordcount, cls, dst, dst_ctrl, src, src_ctrl, error_code,
            counters, cmd }, r)

/-- Modelled from the spec: `SmaInvHeader::check_wordcount` is called by
every inverter message decoder but its definition is not part of the
source snapshot.  Per spec section 4.7 it asserts
`word_count*4 == data_len`, failing with `InvalidWordcount`. -/
def check_wordcount (h : SmaInvHeader) (data_len : Nat) : Result Unit :=
  if h.wordcount * 4 = data_len then .ok ()
  else .error (.InvalidWordcount h.wordcount)

/-- Modelled from the spec: `SmaInvHeader::check_class` is called by every
inverter message decoder but its definition is not part of the source
snapshot.  Per spec section 4.7 it compares the class field with the
expected value, failing with `UnsupportedCommandClass`. -/
def check_class (h : SmaInvHeader) (expected : Nat) : Result Unit :=
  if h.cls = expected then .ok ()
  else .error (.UnsupportedCommandClass h.cls)

/-- Modelled from the spec: `SmaInvHeader::check_opcode` is called by every
inverter message decoder but its definition is not part of the source
snapshot.  Per spec section 4.7 it compares the opcode field with the
expected value, failing with `UnsupportedOpcode`. -/
def check_opcode (h : SmaInvHeader) (expected : Nat) : Result Unit :=
  if h.cmd.opcode = expected then .ok ()
  else .error (.UnsupportedOpcode h.cmd.opcode)

end SmaInvHeader

/-- Total inverter energy production at a given timestamp,
from src/inverter/meter.rs. -/
structure SmaInvMeterValue where
  timestamp : Nat
  energy_wh : Nat
deriving DecidableEq, Repr

namespace SmaInvMeterValue

/-- Serialized length of a meter value. -/
@[simp]
def LENGTH : Nat := 12

/-- Field bounds of a meter value (`u32` timestamp, `u64` energy). -/
def Wf (v : SmaInvMeterValue) : Prop :=
  v.timestamp < 4294967296 ∧ v.energy_wh < 18446744073709551616

instance (v : SmaInvMeterValue) : Decidable v.Wf := by
  unfold Wf; infer_instance

/-- `SmaInvMeterValue::serialize`. -/
def serialize (v : SmaInvMeterValue) (w : WCursor) : Result WCursor := do
  w.checkRemaining LENGTH
  let w := w.wrLE32 v.timestamp
  let w := w.wrLE64 v.energy_wh
  return w

/-- `SmaInvMeterValue::deserialize`. -/
def deserialize (r : List Nat) : Result (SmaInvMeterValue × List Nat) := do
  checkRemaining r LENGTH
  let (timestamp, r) := rdU32LE r
  let (energy_wh, r) := rdU64LE r
  return ({ timestamp, energy_wh }, r)

end SmaInvMeterValue

/-- Well-formedness of an optional fixed-size byte blob field: when
present it has the given length and holds byte values. -/
def OptBytesWf (cap : Nat) : Option (List Nat) → Prop
  | none => True
  | some l => l.length = cap ∧ ∀ b ∈ l, b < 256

instance (cap : Nat) : (o : Option (List Nat)) → Decidable (OptBytesWf cap o)
  | none => .isTrue trivial
  | some l => by unfold OptBytesWf; infer_instance

/-- A logical SMA inverter identify message, from src/inverter/identify.rs. -/
structure SmaInvIdentify where
  dst : SmaEndpoint
  src : SmaEndpoint
  error_code : Nat
  counters : SmaInvCounter
  identity : Option (List Nat)
deriving DecidableEq, Repr

namespace SmaInvIdentify

/-- Identify opcode. -/
@[simp]
def OPCODE : Nat := 0x020000

/-- Request payload length. -/
@[simp]
def PAYLOAD_MIN : Nat := 8

/-- Response payload length. -/
@[simp]
def PAYLOAD_MAX : Nat := 48

/-- Minimum serialized length. -/
@[simp]
def LENGTH_MIN : Nat := SmaPacketHeader.LENGTH + SmaInvHeader.LENGTH +
  PAYLOAD_MIN + SmaPacketFooter.LENGTH

/-- Maximum serialized length. -/
@[simp]
def LENGTH_MAX : Nat := SmaPacketHeader.LENGTH + SmaInvHeader.LENGTH +
  PAYLOAD_MAX + SmaPacketFooter.LENGTH

/-- Field bounds of an identify message; the identity blob of a response
is 48 opaque bytes. -/
def Wf (m : SmaInvIdentify) : Prop :=
  m.dst.Wf ∧ m.src.Wf ∧ m.error_code < 65536 ∧ m.counters.Wf ∧
    OptBytesWf PAYLOAD_MAX m.identity

instance (m : SmaInvIdentify) : Decidable m.Wf := by
  unfold Wf; infer_instance

/-- `SmaInvIdentify::serialize`. -/
def serialize (m : SmaInvIdentify) (w : WCursor) : Result WCursor := do
  let data_len ←
    if m.identity.isSome then do
      w.checkRemaining LENGTH_MAX
      pure (LENGTH_MAX - SmaPacketHeader.LENGTH - SmaPacketFooter.LENGTH)
    else do
      w.checkRemaining LENGTH_MIN
      pure (LENGTH_MIN - SmaPacketHeader.LENGTH - SmaPacketFooter.LENGTH)
  let header : SmaPacketHeader :=
    { data_len, protocol := SmaPacketHeader.SMA_PROTOCOL_INV }
  let (dst_ctrl, channel) := if m.identity.isSome then (0xC0, 1) else (0, 0)
  let inv_header : SmaInvHeader :=
    { wordcount := data_len / 4 % 256, cls := 0xA0, dst := m.dst, dst_ctrl,
      src := m.src, src_ctrl := 0, error_code := m.error_code,
      counters := m.counters, cmd := { channel, opcode := OPCODE } }
  let w ← header.serialize w
  let w ← inv_header.serialize w
  let w :=
    match m.identity with
    | some identity => w.wrBytes identity
    | none => w.wrBytes (List.replicate PAYLOAD_MIN 0)
  SmaPacketFooter.serialize w

/-- `SmaInvIdentify::deserialize`.  `header.data_len - 28` is usize
subtraction in Rust; `Nat` subtraction truncates where a Rust build would
wrap or panic (`data_len < 28`), a path no theorem below exercises. -/
def deserialize (bs : List Nat) : Result SmaInvIdentify := do
  checkRemaining bs LENGTH_MIN
  let (header, r) ← SmaPacketHeader.deserialize bs
  header.check_protocol SmaPacketHeader.SMA_PROTOCOL_INV
  checkRemaining r header.data_len
  let (inv_header, r) ← SmaInvHeader.deserialize r
  inv_header.check_wordcount header.data_len
  inv_header.check_class 0xA0
  inv_header.check_opcode OPCODE
  let (identity, r) ←
    if header.data_len - SmaInvHeader.LENGTH ≥ PAYLOAD_MAX then
      let (identity, r) := rdBytes PAYLOAD_MAX r
      pure (some identity, r)
    else
      pure (none, r.drop PAYLOAD_MIN)
  SmaPacketFooter.deserialize r
  return { dst := inv_header.dst, src := inv_header.src,
           error_code := inv_header.error_code,
           counters := inv_header.counters, identity }

end SmaInvIdentify

/-- Invalid input password error, from src/inverter/login.rs. -/
inductive InvalidPasswordError where
  | mk
deriving DecidableEq, Repr

/-- A logical SMA inverter login message, from src/inverter/login.rs. -/
structure SmaInvLogin where
  dst : SmaEndpoint
  src : SmaEndpoint
  error_code : Nat
  counters : SmaInvCounter
  user_group : Nat
  timeout : Nat
  timestamp : Nat
  password : Option (List Nat)
deriving DecidableEq, Repr

namespace SmaInvLogin

/-- Login opcode. -/
@[simp]
def OPCODE : Nat := 0x04FDFF

/-- Response payload length (no password). -/
@[simp]
def PAYLOAD_MIN : Nat := 16

/-- Request payload length (with password). -/
@[simp]
def PAYLOAD_MAX : Nat := 28

/-- Zero padded password length. -/
@[simp]
def PASSWORD_LEN : Nat := 12

/-- Minimum serialized length. -/
@[simp]
def LENGTH_MIN : Nat := SmaPacketHeader.LENGTH + SmaInvHeader.LENGTH +
  PAYLOAD_MIN + SmaPacketFooter.LENGTH

/-- Maximum serialized length. -/
@[simp]
def LENGTH_MAX : Nat := SmaPacketHeader.LENGTH + SmaInvHeader.LENGTH +
  PAYLOAD_MAX + SmaPacketFooter.LENGTH

/-- Field bounds of a login message; the password of a request is 12
zero padded bytes. -/
def Wf (m : SmaInvLogin) : Prop :=
  m.dst.Wf ∧ m.src.Wf ∧ m.error_code < 65536 ∧ m.counters.Wf ∧
    m.user_group < 4294967296 ∧ m.timeout < 4294967296 ∧
    m.timestamp < 4294967296 ∧ OptBytesWf PASSWORD_LEN m.password

instance (m : SmaInvLogin) : Decidable m.Wf := by
  unfold Wf; infer_instance

/-- `SmaInvLogin::serialize`.  Each password byte is obfuscated with the
u8 wrapping addition `char + 0x88` (a debug build panics on the overflow
for `char ≥ 0x78`); `wrU8` reduces the sum mod 256. -/
def serialize (m : SmaInvLogin) (w : WCursor) : Result WCursor := do
  let data_len ←
    if m.password.isSome then do
      w.checkRemaining LENGTH_MAX
      pure (LENGTH_MAX - SmaPacketHeader.LENGTH - SmaPacketFooter.LENGTH)
    else do
      w.checkRemaining LENGTH_MIN
      pure (LENGTH_MIN - SmaPacketHeader.LENGTH - SmaPacketFooter.LENGTH)
  let header : SmaPacketHeader :=
    { data_len, protocol := SmaPacketHeader.SMA_PROTOCOL_INV }
  let (cls, channel) :=
    if m.password.isSome then
      if m.error_code = 0 then (0xA0, 0x0C) else (0xD0, 0x0C)
    else (0xE0, 0x0D)
  let inv_header : SmaInvHeader :=
    { wordcount := data_len / 4 % 256, cls, dst := m.dst, dst_ctrl := 1,
      src := m.src, src_ctrl := 1, error_code := m.error_code,
      counters := m.counters, cmd := { channel, opcode := OPCODE } }
  let w ← header.serialize w
  let w ← inv_header.serialize w
  let w := w.wrLE32 m.user_group
  let w := w.wrLE32 m.timeout
  let w := w.wrLE32 m.timestamp
  let w := w.wrLE32 0
  let w :=
    match m.password with
    | some password => password.foldl (fun w c => w.wrU8 (c + 0x88)) w
    | none => w
  SmaPacketFooter.serialize w

/-- `SmaInvLogin::deserialize`.  Each password byte is de-obfuscated with
the u8 wrapping subtraction `byte - 0x88`, embedded as `(byte + 120) % 256`
(a debug build panics on the underflow for `byte < 0x88`).
`header.data_len - 28` is usize subtraction; `Nat` subtraction truncates
where a Rust build would wrap or panic, a path no theorem below
exercises. -/
def deserialize (bs : List Nat) : Result SmaInvLogin := do
  checkRemaining bs LENGTH_MIN
  let (header, r) ← SmaPacketHeader.deserialize bs
  header.check_protocol SmaPacketHeader.SMA_PROTOCOL_INV
  checkRemaining r header.data_len
  let (inv_header, r) ← SmaInvHeader.deserialize r
  inv_header.check_wordcount header.data_len
  if inv_header.cls ≠ 0xA0 ∧ inv_header.cls ≠ 0xD0 then
    inv_header.check_class 0xE0
  inv_header.check_opcode OPCODE
  let (user_group, r) := rdU32LE r
  let (timeout, r) := rdU32LE r
  let (timestamp, r) := rdU32LE r
  let (padding, r) := rdU32LE r
  if padding ≠ 0 then
    throw (.InvalidPadding padding)
  let payload_len := header.data_len - SmaInvHeader.LENGTH
  let (password, r) ←
    if payload_len ≥ PAYLOAD_MAX then
      let (pwBytes, r) := rdBytes PASSWORD_LEN r
      pure (some (pwBytes.map (fun b => (b + 120) % 256)), r)
    else
      pure (none, r)
  SmaPacketFooter.deserialize r
  return { dst := inv_header.dst, src := inv_header.src,
           error_code := inv_header.error_code,
           counters := inv_header.counters, user_group, timeout, timestamp,
           password }

/-- The `passwd.chars().zip(buffer.iter_mut())` loop of
`SmaInvLogin::pw_from_str`: each processed character must be ASCII
(`< 128`) and is cast to u8. -/
def pw_from_str_go : List Nat → Except InvalidPasswordError (List Nat)
  | [] => .ok []
  | c :: rest =>
    if c < 128 then (pw_from_str_go rest).map (fun l => c % 256 :: l)
    else .error .mk

/-- `SmaInvLogin::pw_from_str`: the zip with the 12 byte buffer processes
only the first 12 characters; unwritten buffer bytes stay zero. -/
def pw_from_str (passwd : List Nat) : Except InvalidPasswordError (List Nat) :=
  (pw_from_str_go (passwd.take PASSWORD_LEN)).map
    (fun l => l ++ List.replicate (PASSWORD_LEN - l.length) 0)

end SmaInvLogin

/-- A logical SMA inverter logout message, from src/inverter/logout.rs. -/
structure SmaInvLogout where
  dst : SmaEndpoint
  src : SmaEndpoint
  error_code : Nat
  counters : SmaInvCounter
deriving DecidableEq, Repr

namespace SmaInvLogout

/-- Logout opcode. -/
@[simp]
def OPCODE : Nat := 0x01FDFF

/-- Serialized length. -/
@[simp]
def LENGTH : Nat := SmaPacketHeader.LENGTH + SmaInvHeader.LENGTH + 4 +
  SmaPacketFooter.LENGTH

/-- Field bounds of a logout message. -/
def Wf (m : SmaInvLogout) : Prop :=
  m.dst.Wf ∧ m.src.Wf ∧ m.error_code < 65536 ∧ m.counters.Wf

instance (m : SmaInvLogout) : Decidable m.Wf := by
  unfold Wf; infer_instance

/-- `SmaInvLogout::serialize`. -/
def serialize (m : SmaInvLogout) (w : WCursor) : Result WCursor := do
  w.checkRemaining LENGTH
  let data_len :=
    LENGTH - SmaPacketHeader.LENGTH - SmaPacketFooter.LENGTH
  let header : SmaPacketHeader :=
    { data_len, protocol := SmaPacketHeader.SMA_PROTOCOL_INV }
  let inv_header : SmaInvHeader :=
    { wordcount := data_len / 4 % 256, cls := 0xA0, dst := m.dst,
      dst_ctrl := 3, src := m.src, src_ctrl := 3,
      error_code := m.error_code, counters := m.counters,
      cmd := { channel := 0x0E, opcode := OPCODE } }
  let w ← header.serialize w
  let w ← inv_header.serialize w
  let w := w.wrLE32 0xFFFFFFFF
  SmaPacketFooter.serialize w

/-- `SmaInvLogout::deserialize`. -/
def deserialize (bs : List Nat) : Result SmaInvLogout := do
  checkRemaining bs LENGTH
  let (header, r) ← SmaPacketHeader.deserialize bs
  header.check_protocol SmaPacketHeader.SMA_PROTOCOL_INV
  checkRemaining r header.data_len
  let (inv_header, r) ← SmaInvHeader.deserialize r
  inv_header.check_wordcount header.data_len
  inv_header.check_class 0xA0
  inv_header.check_opcode OPCODE
  let (padding, r) := rdU32LE r
  if padding ≠ 0xFFFFFFFF then
    throw (.InvalidPadding padding)
  SmaPacketFooter.deserialize r
  return { dst := inv_header.dst, src := inv_header.src,
           error_code := inv_header.error_code,
           counters := inv_header.counters }

end SmaInvLogout

/-- A logical GetDayData message request/response,
from src/inverter/get_day_data.rs.  The record container is the bounded
sequence of the data model (capacity `MAX_RECORD_COUNT`), embedded as a
plain list whose capacity is enforced by the (de)serializers. -/
structure SmaInvGetDayData where
  dst : SmaEndpoint
  src : SmaEndpoint
  error_code : Nat
  counters : SmaInvCounter
  start_time_idx : Nat
  end_time_idx : Nat
  records : List SmaInvMeterValue
deriving DecidableEq, Repr

namespace SmaInvGetDayData

/-- GetDayData opcode. -/
@[simp]
def OPCODE : Nat := 0x020070

/-- Maximum number of records per fragment. -/
@[simp]
def MAX_RECORD_COUNT : Nat := 81

/-- Minimum serialized length. -/
@[simp]
def LENGTH_MIN : Nat := SmaPacketHeader.LENGTH + SmaInvHeader.LENGTH + 8 +
  SmaPacketFooter.LENGTH

/-- Maximum serialized length. -/
@[simp]
def LENGTH_MAX : Nat :=
  LENGTH_MIN + MAX_RECORD_COUNT * SmaInvMeterValue.LENGTH

/-- `SmaInvGetDayData::serialized_len`. -/
def serialized_len (m : SmaInvGetDayData) : Nat :=
  LENGTH_MIN + m.records.length * SmaInvMeterValue.LENGTH

/-- Field bounds of a GetDayData message. -/
def Wf (m : SmaInvGetDayData) : Prop :=
  m.dst.Wf ∧ m.src.Wf ∧ m.error_code < 65536 ∧ m.counters.Wf ∧
    m.start_time_idx < 4294967296 ∧ m.end_time_idx < 4294967296 ∧
    ∀ v ∈ m.records, v.Wf

instance (m : SmaInvGetDayData) : Decidable m.Wf := by
  unfold Wf; infer_instance

/-- The record serialization loop of `SmaInvGetDayData::serialize`. -/
def serRecords : List SmaInvMeterValue → WCursor → Result WCursor
  | [], w => .ok w
  | v :: rest, w => do
    let w ← v.serialize w
    serRecords rest w

/-- `SmaInvGetDayData::serialize`. -/
def serialize (m : SmaInvGetDayData) (w : WCursor) : Result WCursor := do
  if m.records.length > MAX_RECORD_COUNT then
    throw (.PayloadTooLarge m.records.length)
  let len := m.serialized_len
  w.checkRemaining len
  let data_len := len - SmaPacketHeader.LENGTH - SmaPacketFooter.LENGTH
  let header : SmaPacketHeader :=
    { data_len, protocol := SmaPacketHeader.SMA_PROTOCOL_INV }
  let (channel, dst_ctrl) := if m.records.isEmpty then (0, 0x00) else (1, 0xA0)
  let inv_header : SmaInvHeader :=
    { wordcount := data_len / 4 % 256, cls := 0xE0, dst := m.dst, dst_ctrl,
      src := m.src, src_ctrl := 0, error_code := m.error_code,
      counters := m.counters, cmd := { channel, opcode := OPCODE } }
  let w ← header.serialize w
  let w ← inv_header.serialize w
  let w := w.wrLE32 m.start_time_idx
  let w := w.wrLE32 m.end_time_idx
  let w ← serRecords m.records w
  SmaPacketFooter.serialize w

/-- The record loop of `SmaInvGetDayData::deserialize`: consume records
while `remaining - padding_len >= 12`.  `left` counts the free capacity
of the bounded record container, whose failing `push` produces
`PayloadTooLarge`. -/
def desRecords (padding_len : Nat) : Nat → List SmaInvMeterValue →
    List Nat → Result (List SmaInvMeterValue × List Nat)
  | left, acc, r =>
    if r.length - padding_len ≥ SmaInvMeterValue.LENGTH then do
      let (record, r) ← SmaInvMeterValue.deserialize r
      match left with
      | 0 => throw (.PayloadTooLarge (acc.length + 1))
      | left + 1 => desRecords padding_len left (acc ++ [record]) r
    else
      .ok (acc, r)

/-- `SmaInvGetDayData::deserialize`.  The usize subtractions behave as in
the other decoders: `Nat` truncation replaces a Rust panic or wrap on
inputs no theorem below exercises. -/
def deserialize (bs : List Nat) : Result SmaInvGetDayData := do
  checkRemaining bs LENGTH_MIN
  let (header, r) ← SmaPacketHeader.deserialize bs
  header.check_protocol SmaPacketHeader.SMA_PROTOCOL_INV
  checkRemaining r header.data_len
  let padding_len := r.length - header.data_len
  let (inv_header, r) ← SmaInvHeader.deserialize r
  inv_header.check_wordcount header.data_len
  inv_header.check_class 0xE0
  inv_header.check_opcode OPCODE
  let (start_time_idx, r) := rdU32LE r
  let (end_time_idx, r) := rdU32LE r
  let (records, r) ← desRecords padding_len MAX_RECORD_COUNT [] r
  SmaPacketFooter.deserialize r
  return { dst := inv_header.dst, src := inv_header.src,
           error_code := inv_header.error_code,
           counters := inv_header.counters, start_time_idx, end_time_idx,
           records }

end SmaInvGetDayData

/-- Container that can hold any supported SMA speedwire message,
from src/any.rs. -/
inductive AnySmaMessage where
  | EmMessage (m : SmaEmMessage)
  | InvGetDayData (m : SmaInvGetDayData)
  | InvIdentify (m : SmaInvIdentify)
  | InvLogin (m : SmaInvLogin)
  | InvLogout (m : SmaInvLogout)
deriving DecidableEq, Repr

namespace AnySmaMessage

/-- `AnySmaMessageBase::serialize`. -/
def serialize : AnySmaMessage → WCursor → Result WCursor
  | .EmMessage x, w => x.serialize w
  | .InvGetDayData x, w => x.serialize w
  | .InvIdentify x, w => x.serialize w
  | .InvLogin x, w => x.serialize w
  | .InvLogout x, w => x.serialize w

/-- `AnySmaMessageBase::deserialize`: peek the fourCC, the protocol tag at
offset 16 and (for the inverter protocol) the 24 bit opcode at offset 43,
then dispatch to the concrete decoder on the whole buffer. -/
def deserialize (bs : List Nat) : Result AnySmaMessage := do
  checkRemaining bs SmaPacketHeader.LENGTH
  let fourcc := peekU32BE bs 0
  if fourcc ≠ SmaPacketHeader.SMA_FOURCC then
    throw (.InvalidFourCC fourcc)
  let protocol := peekU16BE bs 16
  if protocol = SmaPacketHeader.SMA_PROTOCOL_EM then
    return .EmMessage (← SmaEmMessage.deserialize bs)
  else if protocol = SmaPacketHeader.SMA_PROTOCOL_INV then do
    checkRemaining bs (SmaPacketHeader.LENGTH + SmaInvHeader.LENGTH)
    let opcode := peekU24BE bs 43
    if opcode = SmaInvGetDayData.OPCODE then
      return .InvGetDayData (← SmaInvGetDayData.deserialize bs)
    else if opcode = SmaInvIdentify.OPCODE then
      return .InvIdentify (← SmaInvIdentify.deserialize bs)
    else if opcode = SmaInvLogin.OPCODE then
      return .InvLogin (← SmaInvLogin.deserialize bs)
    else if opcode = SmaInvLogout.OPCODE then
      return .InvLogout (← SmaInvLogout.deserialize bs)
    else
      throw (.UnsupportedOpcode opcode)
  else
    throw (.UnsupportedProtocol protocol)

end AnySmaMessage

/-- Client error kinds reachable in the fragment reassembly loop,
from src/client/error.rs.  The socket and clock variants concern external
collaborators and are not part of the modelled loop. -/
inductive ClientError where
  | DeviceError (code : Nat)
  | ExtraSofPacket (counters : SmaInvCounter)
deriving DecidableEq, Repr

/-- The mutable loop state of `SmaClient::get_day_data`
(src/client/mod.rs lines 167-171): `total_fragments`, `rx_fragments`,
`rx_first` and the accumulated `records`. -/
structure GddLoopState where
  total_fragments : Nat
  rx_fragments : Nat
  rx_first : Bool
  records : List SmaInvMeterValue
deriving DecidableEq, Repr

/-- Initial loop state of `SmaClient::get_day_data`. -/
def gddInit : GddLoopState := { total_fragments := 0, rx_fragments := 0,
                                rx_first := false, records := [] }

/-- One iteration body of the `SmaClient::get_day_data` receive loop
(src/client/mod.rs lines 184-198), applied to the next matching response
fragment.  `total_fragments` and `rx_fragments` are u16 values, so the
increments wrap mod 65536 (a debug build panics on the overflow). -/
def gddStep (st : GddLoopState) (resp : SmaInvGetDayData) :
    Except ClientError GddLoopState := do
  let st := { st with rx_fragments := (st.rx_fragments + 1) % 65536 }
  let st ←
    if resp.counters.first_fragment then
      if ¬ st.rx_first then
        pure { st with
               total_fragments := (resp.counters.fragment_id + 1) % 65536,
               rx_first := true }
      else
        throw (.ExtraSofPacket resp.counters)
    else
      pure st
  if resp.error_code ≠ 0 then
    throw (.DeviceError resp.error_code)
  return { st with records := st.records ++ resp.records }

/-- The `while rx_fragments != total_fragments || !rx_first` receive loop
of `SmaClient::get_day_data` (src/client/mod.rs lines 172-199), driven by
the finite list of matching response fragments the predicate-filtered
read would deliver, in arrival order.  `.ok none` models the loop still
blocking on the socket after the supplied fragments are exhausted. -/
def gddLoop : GddLoopState → List SmaInvGetDayData →
    Except ClientError (Option (List SmaInvMeterValue))
  | st, frags =>
    if st.rx_fragments = st.total_fragments ∧ st.rx_first = true then
      .ok (some st.records)
    else
      match frags with
      | [] => .ok none
      | f :: rest => (gddStep st f).bind (fun st2 => gddLoop st2 rest)

/-- The full receive phase of `SmaClient::get_day_data`, starting from the
initial loop state. -/
def gddRun (frags : List SmaInvGetDayData) :
    Except ClientError (Option (List SmaInvMeterValue)) :=
  gddLoop gddInit frags

/-! Serialized byte images: for each component, the byte list its
`serialize` appends to the cursor.  These definitions restate the write
sequences of the serializers above and are related to them by the
`serialize_eq` characterization lemmas below. -/

/-- Byte image of `SmaEndpoint::serialize`. -/
def SmaEndpoint.serBytes (e : SmaEndpoint) : List Nat :=
  be16 e.susy_id ++ be32 e.serial

/-- Byte image of `SmaPacketHeader::serialize`. -/
def SmaPacketHeader.serBytes (h : SmaPacketHeader) : List Nat :=
  be32 SmaPacketHeader.SMA_FOURCC ++ be16 (SmaPacketHeader.LENGTH / 4) ++
    be16 SmaPacketHeader.START_TAG ++ be32 SmaPacketHeader.DEFAULT_GROUP ++
    be16 (h.data_len + 2) ++ be16 SmaPacketHeader.SMA_VERSION ++
    be16 h.protocol

/-- Byte image of `SmaEmHeader::serialize`. -/
def SmaEmHeader.serBytes (h : SmaEmHeader) : List Nat :=
  h.src.serBytes ++ be32 h.timestamp_ms

/-- Byte image of `ObisValue::serialize`. -/
def ObisValue.serBytes (o : ObisValue) : List Nat :=
  be32 o.id ++
    (if o.id = 0x90000000 ∨ o.id &&& 0xFF00 = 0x0400 then be32 o.value
     else if o.id &&& 0xFF00 = 0x0800 then be64 o.value
     else [])

/-- Byte image of `SmaEmMessageBase::serialize`. -/
def SmaEmMessage.serBytes (m : SmaEmMessage) : List Nat :=
  SmaPacketHeader.serBytes
      { data_len := m.serialized_len - SmaPacketHeader.LENGTH -
          SmaPacketFooter.LENGTH,
        protocol := SmaPacketHeader.SMA_PROTOCOL_EM } ++
    SmaEmHeader.serBytes { src := m.src, timestamp_ms := m.timestamp_ms } ++
    (m.payload.map ObisValue.serBytes).flatten ++ be32 0

/-- Byte image of `SmaInvCounter::serialize`. -/
def SmaInvCounter.serBytes (c : SmaInvCounter) : List Nat :=
  le16 c.fragment_id ++
    le16 (if c.first_fragment then c.packet_id ||| SmaInvCounter.FIRST_FRAGMENT_BIT
          else c.packet_id)

/-- Byte image of `SmaCmdWord::serialize`. -/
def SmaCmdWord.serBytes (c : SmaCmdWord) : List Nat :=
  [c.channel % 256] ++ be24 c.opcode

/-- Byte image of `SmaInvHeader::serialize`. -/
def SmaInvHeader.serBytes (h : SmaInvHeader) : List Nat :=
  [h.wordcount % 256] ++ [h.cls % 256] ++ h.dst.serBytes ++ be16 h.dst_ctrl ++
    h.src.serBytes ++ be16 h.src_ctrl ++ be16 h.error_code ++
    h.counters.serBytes ++ h.cmd.serBytes

/-- Byte image of `SmaInvMeterValue::serialize`. -/
def SmaInvMeterValue.serBytes (v : SmaInvMeterValue) : List Nat :=
  le32 v.timestamp ++ le64 v.energy_wh

/-- The inverter sub-protocol header built by `SmaInvIdentify::serialize`. -/
def SmaInvIdentify.invHeader (m : SmaInvIdentify) (data_len : Nat) :
    SmaInvHeader :=
  { wordcount := data_len / 4 % 256, cls := 0xA0, dst := m.dst,
    dst_ctrl := if m.identity.isSome then 0xC0 else 0, src := m.src,
    src_ctrl := 0, error_code := m.error_code, counters := m.counters,
    cmd := { channel := if m.identity.isSome then 1 else 0,
             opcode := SmaInvIdentify.OPCODE } }

/-- Byte image of `SmaInvIdentify::serialize`. -/
def SmaInvIdentify.serBytes (m : SmaInvIdentify) : List Nat :=
  let data_len :=
    if m.identity.isSome then
      SmaInvIdentify.LENGTH_MAX - SmaPacketHeader.LENGTH -
        SmaPacketFooter.LENGTH
    else
      SmaInvIdentify.LENGTH_MIN - SmaPacketHeader.LENGTH -
        SmaPacketFooter.LENGTH
  SmaPacketHeader.serBytes
      { data_len, protocol := SmaPacketHeader.SMA_PROTOCOL_INV } ++
    (m.invHeader data_len).serBytes ++
    (match m.identity with
     | some identity => identity.map (· % 256)
     | none => (List.replicate SmaInvIdentify.PAYLOAD_MIN 0).map (· % 256)) ++
    be32 0

/-- The inverter sub-protocol header built by `SmaInvLogin::serialize`. -/
def SmaInvLogin.invHeader (m : SmaInvLogin) (data_len : Nat) : SmaInvHeader :=
  { wordcount := data_len / 4 % 256,
    cls := if m.password.isSome then (if m.error_code = 0 then 0xA0 else 0xD0)
           else 0xE0,
    dst := m.dst, dst_ctrl := 1, src := m.src, src_ctrl := 1,
    error_code := m.error_code, counters := m.counters,
    cmd := { channel := if m.password.isSome then 0x0C else 0x0D,
             opcode := SmaInvLogin.OPCODE } }

/-- Byte image of `SmaInvLogin::serialize`. -/
def SmaInvLogin.serBytes (m : SmaInvLogin) : List Nat :=
  let data_len :=
    if m.password.isSome then
      SmaInvLogin.LENGTH_MAX - SmaPacketHeader.LENGTH -
        SmaPacketFooter.LENGTH
    else
      SmaInvLogin.LENGTH_MIN - SmaPacketHeader.LENGTH -
        SmaPacketFooter.LENGTH
  SmaPacketHeader.serBytes
      { data_len, protocol := SmaPacketHeader.SMA_PROTOCOL_INV } ++
    (m.invHeader data_len).serBytes ++
    le32 m.user_group ++ le32 m.timeout ++ le32 m.timestamp ++ le32 0 ++
    (match m.password with
     | some password => password.map (fun c => (c + 0x88) % 256)
     | none => []) ++
    be32 0

/-- The inverter sub-protocol header built by `SmaInvLogout::serialize`. -/
def SmaInvLogout.invHeader (m : SmaInvLogout) (data_len : Nat) : SmaInvHeader :=
  { wordcount := data_len / 4 % 256, cls := 0xA0, dst := m.dst,
    dst_ctrl := 3, src := m.src, src_ctrl := 3, error_code := m.error_code,
    counters := m.counters,
    cmd := { channel := 0x0E, opcode := SmaInvLogout.OPCODE } }

/-- Byte image of `SmaInvLogout::serialize`. -/
def SmaInvLogout.serBytes (m : SmaInvLogout) : List Nat :=
  let data_len := SmaInvLogout.LENGTH - SmaPacketHeader.LENGTH -
    SmaPacketFooter.LENGTH
  SmaPacketHeader.serBytes
      { data_len, protocol := SmaPacketHeader.SMA_PROTOCOL_INV } ++
    (m.invHeader data_len).serBytes ++ le32 0xFFFFFFFF ++ be32 0

/-- The inverter sub-protocol header built by `SmaInvGetDayData::serialize`. -/
def SmaInvGetDayData.invHeader (m : SmaInvGetDayData) (data_len : Nat) :
    SmaInvHeader :=
  { wordcount := data_len / 4 % 256, cls := 0xE0, dst := m.dst,
    dst_ctrl := if m.records.isEmpty then 0x00 else 0xA0, src := m.src,
    src_ctrl := 0, error_code := m.error_code, counters := m.counters,
    cmd := { channel := if m.records.isEmpty then 0 else 1,
             opcode := SmaInvGetDayData.OPCODE } }

/-- Byte image of `SmaInvGetDayData::serialize`. -/
def SmaInvGetDayData.serBytes (m : SmaInvGetDayData) : List Nat :=
  let data_len := m.serialized_len - SmaPacketHeader.LENGTH -
    SmaPacketFooter.LENGTH
  SmaPacketHeader.serBytes
      { data_len, protocol := SmaPacketHeader.SMA_PROTOCOL_INV } ++
    (m.invHeader data_len).serBytes ++
    le32 m.start_time_idx ++ le32 m.end_time_idx ++
    (m.records.map SmaInvMeterValue.serBytes).flatten ++ be32 0

/-- An energymeter wire datagram carrying `n` copies of a fixed 32 bit
OBIS record, used to probe the decoder record cap. -/
def emWire (n : Nat) : List Nat :=
  SmaEmMessage.serBytes
    { src := SmaEndpoint.dummy, timestamp_ms := 0,
      payload := List.replicate n { id := 0x010400, value := 0 } }

/-- A GetDayData wire datagram carrying `n` copies of a fixed meter
record, used to probe the decoder record cap. -/
def gddWire (n : Nat) : List Nat :=
  SmaInvGetDayData.serBytes
    { dst := SmaEndpoint.dummy, src := SmaEndpoint.dummy, error_code := 0,
      counters := { fragment_id := 0, packet_id := 1, first_fragment := true },
      start_time_idx := 0, end_time_idx := 0,
      records := List.replicate n { timestamp := 0, energy_wh := 0 } }

/-- The energymeter probe message whose byte image `emWire n` is: `n`
copies of a fixed 32 bit OBIS record. -/
def emProbe (n : Nat) : SmaEmMessage :=
  { src := SmaEndpoint.dummy, timestamp_ms := 0,
    payload := List.replicate n { id := 0x010400, value := 0 } }

/-- The GetDayData probe message whose byte image `gddWire n` is: `n`
copies of a fixed meter record. -/
def gddProbe (n : Nat) : SmaInvGetDayData :=
  { dst := SmaEndpoint.dummy, src := SmaEndpoint.dummy, error_code := 0,
    counters := { fragment_id := 0, packet_id := 1, first_fragment := true },
    start_time_idx := 0, end_time_idx := 0,
    records := List.replicate n { timestamp := 0, energy_wh := 0 } }

/-- A small energymeter message with one 32 bit OBIS record, used to
instantiate the round-trip theorems on a concrete input. -/
def emSample : SmaEmMessage :=
  { src := SmaEndpoint.dummy, timestamp_ms := 1000,
    payload := [{ id := 0x010400, value := 7 }] }

/-- A concrete identify request. -/
def identifySample : SmaInvIdentify :=
  { dst := SmaEndpoint.broadcast, src := SmaEndpoint.dummy, error_code := 0,
    counters := { fragment_id := 0, packet_id := 1, first_fragment := true },
    identity := none }

/-- A concrete login request carrying a 12 character password. -/
def loginSample : SmaInvLogin :=
  { dst := SmaEndpoint.broadcast, src := SmaEndpoint.dummy, error_code := 0,
    counters := { fragment_id := 0, packet_id := 2, first_fragment := true },
    user_group := 7, timeout := 60, timestamp := 123,
    password := some (List.replicate 12 97) }

/-- A concrete logout message. -/
def logoutSample : SmaInvLogout :=
  { dst := SmaEndpoint.broadcast, src := SmaEndpoint.dummy, error_code := 0,
    counters := { fragment_id := 0, packet_id := 3, first_fragment := true } }

/-- A concrete GetDayData first response fragment with one meter record;
its fragment id 1 announces one further fragment. -/
def gddSample : SmaInvGetDayData :=
  { dst := SmaEndpoint.dummy, src := SmaEndpoint.dummy, error_code := 0,
    counters := { fragment_id := 1, packet_id := 4, first_fragment := true },
    start_time_idx := 0, end_time_idx := 1,
    records := [{ timestamp := 5, energy_wh := 9 }] }

/-- A concrete non-first GetDayData continuation fragment. -/
def gddSample2 : SmaInvGetDayData :=
  { gddSample with
    counters := { fragment_id := 0, packet_id := 4, first_fragment := false },
    records := [{ timestamp := 6, energy_wh := 10 }] }

/-! Primitive lemmas: lengths of the byte encoders, success of the
remaining-space checks, and the reader/writer inverse laws. -/

@[simp] theorem be16_length (v : Nat) : (be16 v).length = 2 := by simp [be16]

@[simp] theorem be24_length (v : Nat) : (be24 v).length = 3 := by simp [be24]

@[simp] theorem be32_length (v : Nat) : (be32 v).length = 4 := by simp [be32]

@[simp] theorem be64_length (v : Nat) : (be64 v).length = 8 := by
  simp [be64, be32]

@[simp] theorem le16_length (v : Nat) : (le16 v).length = 2 := by simp [le16]

@[simp] theorem le32_length (v : Nat) : (le32 v).length = 4 := by simp [le32]

@[simp] theorem le64_length (v : Nat) : (le64 v).length = 8 := by
  simp [le64, le32]

theorem checkRemaining_ok {r : List Nat} {n : Nat} (h : n ≤ r.length) :
    checkRemaining r n = .ok () := by
  simp [checkRemaining, Nat.not_lt.mpr h]

theorem WCursor.checkRemainingOk {w : WCursor} {n : Nat}
    (h : n ≤ w.remaining) : w.checkRemaining n = .ok () := by
  rw [WCursor.checkRemaining, if_neg (Nat.not_lt.mpr h)]

theorem rdU16BE_be16 {v : Nat} (hv : v < 65536) (r : List Nat) :
    rdU16BE (be16 v ++ r) = (v, r) := by
  simp [be16, rdU16BE]; omega

theorem rdU24BE_be24 {v : Nat} (hv : v < 16777216) (r : List Nat) :
    rdU24BE (be24 v ++ r) = (v, r) := by
  simp [be24, rdU24BE]; omega

theorem rdU32BE_be32 {v : Nat} (hv : v < 4294967296) (r : List Nat) :
    rdU32BE (be32 v ++ r) = (v, r) := by
  simp [be32, rdU32BE]; omega

theorem rdU64BE_be64 {v : Nat} (hv : v < 18446744073709551616)
    (r : List Nat) : rdU64BE (be64 v ++ r) = (v, r) := by
  simp [be64, be32, rdU64BE, Nat.div_div_eq_div_mul]; omega

theorem rdU16LE_le16 {v : Nat} (hv : v < 65536) (r : List Nat) :
    rdU16LE (le16 v ++ r) = (v, r) := by
  simp [le16, rdU16LE]; omega

theorem rdU32LE_le32 {v : Nat} (hv : v < 4294967296) (r : List Nat) :
    rdU32LE (le32 v ++ r) = (v, r) := by
  simp [le32, rdU32LE]; omega

theorem rdU64LE_le64 {v : Nat} (hv : v < 18446744073709551616)
    (r : List Nat) : rdU64LE (le64 v ++ r) = (v, r) := by
  simp [le64, le32, rdU64LE, Nat.div_div_eq_div_mul]; omega

theorem rdBytes_append {l : List Nat} {n : Nat} (h : l.length = n)
    (r : List Nat) : rdBytes n (l ++ r) = (l, r) := by
  subst h; simp [rdBytes, List.take_left, List.drop_left]

@[simp] theorem exOk_bind {ε α β : Type} (a : α) (f : α → Except ε β) :
    (Except.ok a : Except ε α) >>= f = f a := rfl

@[simp] theorem exError_bind {ε α β : Type} (e : ε) (f : α → Except ε β) :
    (Except.error e : Except ε α) >>= f = .error e := rfl

@[simp] theorem exPure_eq_ok {ε α : Type} (a : α) :
    (pure a : Except ε α) = .ok a := rfl

/-! Characterization of each component serializer: on a cursor with
enough space it appends exactly the component's byte image. -/

@[simp] theorem SmaEndpoint.serBytes_length_ep (e : SmaEndpoint) :
    e.serBytes.length = 6 := by simp [serBytes]

@[simp] theorem SmaPacketHeader.serBytes_length_ph (h : SmaPacketHeader) :
    h.serBytes.length = 18 := by simp [serBytes]

@[simp] theorem SmaEmHeader.serBytes_length_emh (h : SmaEmHeader) :
    h.serBytes.length = 10 := by simp [serBytes]

@[simp] theorem SmaInvCounter.serBytes_length_ctr (c : SmaInvCounter) :
    c.serBytes.length = 4 := by simp [serBytes]

@[simp] theorem SmaCmdWord.serBytes_length_cmd (c : SmaCmdWord) :
    c.serBytes.length = 4 := by simp [serBytes]

@[simp] theorem SmaInvHeader.serBytes_length_ih (h : SmaInvHeader) :
    h.serBytes.length = 28 := by simp [serBytes]

@[simp] theorem SmaInvMeterValue.serBytes_length_mv (v : SmaInvMeterValue) :
    v.serBytes.length = 12 := by simp [serBytes]

theorem ObisValue.serBytes_length_obis {o : ObisValue} (h : ObisValue.ValidId o.id) :
    o.serBytes.length = o.serialized_len := by
  rw [serBytes, serialized_len]
  rcases h with h1 | h1 | h1
  · simp [h1]
  · simp [h1]
  · have h3 : o.id ≠ 0x90000000 := by
      intro hx; rw [hx] at h1
      exact absurd h1 (by decide)
    have h4 : o.id &&& 0xFF00 ≠ 0x0400 := by
      intro hx; rw [hx] at h1
      exact absurd h1 (by decide)
    simp [h1, h3, h4]

theorem SmaEndpoint.serialize_eq_ep (e : SmaEndpoint) (cap : Nat)
    (out : List Nat) (h : out.length + 6 ≤ cap) :
    e.serialize ⟨cap, out⟩ = .ok ⟨cap, out ++ e.serBytes⟩ := by
  have hc : (6 : Nat) ≤ WCursor.remaining ⟨cap, out⟩ := by
    simp; omega
  simp [serialize, WCursor.checkRemainingOk hc, serBytes,
    WCursor.wrBE16, WCursor.wrBE32]

theorem SmaInvCounter.serialize_eq_ctr (c : SmaInvCounter) (cap : Nat)
    (out : List Nat) (h : out.length + 4 ≤ cap) :
    c.serialize ⟨cap, out⟩ = .ok ⟨cap, out ++ c.serBytes⟩ := by
  have hc : (4 : Nat) ≤ WCursor.remaining ⟨cap, out⟩ := by
    simp; omega
  simp [serialize, WCursor.checkRemainingOk hc, serBytes, WCursor.wrLE16]

theorem SmaCmdWord.serialize_eq_cmd (c : SmaCmdWord) (cap : Nat)
    (out : List Nat) (h : out.length + 4 ≤ cap) :
    c.serialize ⟨cap, out⟩ = .ok ⟨cap, out ++ c.serBytes⟩ := by
  have hc : (4 : Nat) ≤ WCursor.remaining ⟨cap, out⟩ := by
    simp; omega
  simp [serialize, WCursor.checkRemainingOk hc, serBytes,
    WCursor.wrU8, WCursor.wrBE24]

theorem SmaPacketHeader.serialize_eq_ph (h : SmaPacketHeader) (cap : Nat)
    (out : List Nat) (hb : out.length + 18 ≤ cap) :
    h.serialize ⟨cap, out⟩ = .ok ⟨cap, out ++ h.serBytes⟩ := by
  have hc : (18 : Nat) ≤ WCursor.remaining ⟨cap, out⟩ := by
    simp; omega
  simp [serialize, WCursor.checkRemainingOk hc, serBytes, WCursor.wrBE16,
    WCursor.wrBE32]

theorem SmaEmHeader.serialize_eq_emh (h : SmaEmHeader) (cap : Nat)
    (out : List Nat) (hb : out.length + 10 ≤ cap) :
    h.serialize ⟨cap, out⟩ = .ok ⟨cap, out ++ h.serBytes⟩ := by
  have hc : (10 : Nat) ≤ WCursor.remaining ⟨cap, out⟩ := by
    simp; omega
  simp only [serialize, SmaEmHeader.LENGTH, WCursor.checkRemainingOk hc,
    exOk_bind]
  rw [SmaEndpoint.serialize_eq_ep _ _ _ (by omega)]
  simp [serBytes, WCursor.wrBE32]

theorem SmaInvMeterValue.serialize_eq_mv (v : SmaInvMeterValue) (cap : Nat)
    (out : List Nat) (h : out.length + 12 ≤ cap) :
    v.serialize ⟨cap, out⟩ = .ok ⟨cap, out ++ v.serBytes⟩ := by
  have hc : (12 : Nat) ≤ WCursor.remaining ⟨cap, out⟩ := by
    simp; omega
  simp [serialize, WCursor.checkRemainingOk hc, serBytes,
    WCursor.wrLE32, WCursor.wrLE64]

theorem SmaInvHeader.serialize_eq_ih (h : SmaInvHeader) (cap : Nat)
    (out : List Nat) (hb : out.length + 28 ≤ cap) :
    h.serialize ⟨cap, out⟩ = .ok ⟨cap, out ++ h.serBytes⟩ := by
  have hc : (28 : Nat) ≤ WCursor.remaining ⟨cap, out⟩ := by
    simp; omega
  simp only [serialize, SmaInvHeader.LENGTH, WCursor.checkRemainingOk hc,
    exOk_bind, WCursor.wrU8, WCursor.wrBE16]
  rw [SmaEndpoint.serialize_eq_ep _ _ _ (by simp; omega)]
  simp only [exOk_bind]
  rw [SmaEndpoint.serialize_eq_ep _ _ _ (by simp; omega)]
  simp only [exOk_bind]
  rw [SmaInvCounter.serialize_eq_ctr _ _ _ (by simp; omega)]
  simp only [exOk_bind]
  rw [SmaCmdWord.serialize_eq_cmd _ _ _ (by simp; omega)]
  simp [serBytes, List.append_assoc]

theorem ObisValue.validate_ok {o : ObisValue} (h : ObisValue.ValidId o.id) :
    o.validate = .ok () := by
  rw [validate, if_pos (show _ ∨ _ ∨ _ from h)]

theorem ObisValue.serialize_eq_obis (o : ObisValue) (ho : o.Wf) (cap : Nat)
    (out : List Nat) (h : out.length + o.serialized_len ≤ cap) :
    o.serialize ⟨cap, out⟩ = .ok ⟨cap, out ++ o.serBytes⟩ := by
  obtain ⟨hid, _, _⟩ := ho
  have hc : o.serialized_len ≤ WCursor.remaining ⟨cap, out⟩ := by
    simp; omega
  simp only [serialize, ObisValue.validate_ok hid,
    WCursor.checkRemainingOk hc, exOk_bind, WCursor.wrBE32, WCursor.wrBE64]
  rcases hid with h1 | h1 | h1
  · simp [serBytes, h1, WCursor.wrBE32]
  · simp [serBytes, h1, WCursor.wrBE32]
  · have h3 : o.id ≠ 0x90000000 := by
      intro hx; rw [hx] at h1
      exact absurd h1 (by decide)
    have h4 : o.id &&& 0xFF00 ≠ 0x0400 := by
      intro hx; rw [hx] at h1
      exact absurd h1 (by decide)
    simp [serBytes, h1, h3, h4, WCursor.wrBE64]

theorem SmaPacketFooter.serialize_eq_ft (cap : Nat) (out : List Nat)
    (h : out.length + 4 ≤ cap) :
    SmaPacketFooter.serialize ⟨cap, out⟩ = .ok ⟨cap, out ++ be32 0⟩ := by
  have hc : (4 : Nat) ≤ WCursor.remaining ⟨cap, out⟩ := by
    simp; omega
  simp [serialize, WCursor.checkRemainingOk hc, WCursor.wrBE32]

/-! Bit manipulation bridges for the counter first-fragment flag. -/

theorem lor_bit15 {p : Nat} (hp : p < 32768) : p ||| 32768 = p + 32768 := by
  have h := Nat.mul_add_lt_is_or (i := 15) (b := p) (by norm_num; omega) 1
  have h2 := Nat.lor_comm p 32768
  norm_num at h h2
  omega

theorem and_bit15_of_lt {raw : Nat} (h : raw < 32768) : raw &&& 32768 = 0 := by
  rw [show (32768 : Nat) = 2 ^ 15 by norm_num, Nat.and_two_pow]
  rw [Nat.testBit_to_div_mod]
  have hz : raw / 2 ^ 15 = 0 := Nat.div_eq_of_lt (by norm_num; omega)
  simp [hz]
  omega

theorem and_bit15_of_ge {raw : Nat} (h1 : 32768 ≤ raw) (h2 : raw < 65536) :
    raw &&& 32768 = 32768 := by
  rw [show (32768 : Nat) = 2 ^ 15 by norm_num, Nat.and_two_pow]
  rw [Nat.testBit_to_div_mod]
  have ho : raw / 2 ^ 15 = 1 := by norm_num; omega
  simp [ho]
  omega

theorem and_mask15 (raw : Nat) : raw &&& 32767 = raw % 32768 := by
  have h := Nat.and_pow_two_sub_one_eq_mod raw 15
  norm_num at h
  exact h

/-! Inverse lemmas: each component deserializer consumes exactly the byte
image of a well-formed value and returns that value. -/

theorem SmaEndpoint.des_ser_ep (e : SmaEndpoint) (he : e.Wf) (r : List Nat) :
    SmaEndpoint.deserialize (e.serBytes ++ r) = .ok (e, r) := by
  obtain ⟨h1, h2⟩ := he
  have hlen : (6 : Nat) ≤ (be16 e.susy_id ++ (be32 e.serial ++ r)).length := by
    simp; omega
  rw [deserialize]
  simp [checkRemaining_ok hlen, serBytes, List.append_assoc, rdU16BE_be16 h1, rdU32BE_be32 h2]

theorem SmaPacketHeader.des_ser_ph (h : SmaPacketHeader)
    (h1 : h.data_len ≤ 65533) (h2 : h.protocol < 65536) (r : List Nat) :
    SmaPacketHeader.deserialize (h.serBytes ++ r) = .ok (h, r) := by
  have hlen : (18 : Nat) ≤ (be32 1397571840 ++ (be16 4 ++ (be16 672 ++
      (be32 1 ++ (be16 (h.data_len + 2) ++ (be16 16 ++
        (be16 h.protocol ++ r))))))).length := by simp; omega
  rw [deserialize]
  simp [checkRemaining_ok hlen, serBytes, List.append_assoc,
    rdU32BE_be32 (show (0x534D4100 : Nat) < 4294967296 by norm_num),
    rdU32BE_be32 (show (1 : Nat) < 4294967296 by norm_num),
    rdU16BE_be16 (show (4 : Nat) < 65536 by norm_num),
    rdU16BE_be16 (show (0x02A0 : Nat) < 65536 by norm_num),
    rdU16BE_be16 (show (0x10 : Nat) < 65536 by norm_num),
    rdU16BE_be16 (show h.data_len + 2 < 65536 by omega),
    rdU16BE_be16 h2,
    show (h.data_len + 2 + 65534) % 65536 = h.data_len by omega]

theorem SmaEmHeader.des_ser_emh (h : SmaEmHeader) (hw : h.Wf) (r : List Nat) :
    SmaEmHeader.deserialize (h.serBytes ++ r) = .ok (h, r) := by
  obtain ⟨h1, h2⟩ := hw
  have hlen : (10 : Nat) ≤ (h.src.serBytes ++ (be32 h.timestamp_ms ++ r)).length := by
    simp; omega
  rw [deserialize]
  simp [checkRemaining_ok hlen, serBytes, List.append_assoc,
    SmaEndpoint.des_ser_ep h.src h1, rdU32BE_be32 h2]

theorem SmaInvCounter.des_ser_ctr (c : SmaInvCounter) (hw : c.Wf) (r : List Nat) :
    SmaInvCounter.deserialize (c.serBytes ++ r) = .ok (c, r) := by
  obtain ⟨cf, cp, cff⟩ := c
  obtain ⟨h1, h2⟩ := hw
  simp only [SmaInvCounter.Wf] at h1 h2
  rw [deserialize]
  cases cff
  · have hlen : (4 : Nat) ≤ (le16 cf ++ (le16 cp ++ r)).length := by
      simp; omega
    simp [checkRemaining_ok hlen, serBytes, List.append_assoc,
      rdU16LE_le16 h1,
      rdU16LE_le16 (show cp < 65536 by omega),
      and_bit15_of_lt h2]
  · have hor : cp ||| 32768 = cp + 32768 := lor_bit15 h2
    have hlen : (4 : Nat) ≤
        (le16 cf ++ (le16 (cp + 32768) ++ r)).length := by
      simp; omega
    simp only [serBytes, if_true, SmaInvCounter.FIRST_FRAGMENT_BIT, hor,
      List.append_assoc]
    simp [checkRemaining_ok hlen, rdU16LE_le16 h1,
      rdU16LE_le16 (show cp + 32768 < 65536 by omega),
      and_bit15_of_ge (show 32768 ≤ cp + 32768 by omega)
        (show cp + 32768 < 65536 by omega),
      and_mask15, Nat.add_mod_right, Nat.mod_eq_of_lt h2]

theorem SmaCmdWord.des_ser_cmd (c : SmaCmdWord) (hw : c.Wf) (r : List Nat) :
    SmaCmdWord.deserialize (c.serBytes ++ r) = .ok (c, r) := by
  obtain ⟨h1, h2⟩ := hw
  have hlen : (4 : Nat) ≤ (c.channel :: (be24 c.opcode ++ r)).length := by
    simp
  rw [deserialize]
  simp [checkRemaining_ok hlen, serBytes, List.append_assoc, rdU8,
    rdU24BE_be24 h2, Nat.mod_eq_of_lt h1]

theorem SmaInvMeterValue.des_ser_mv (v : SmaInvMeterValue) (hw : v.Wf)
    (r : List Nat) :
    SmaInvMeterValue.deserialize (v.serBytes ++ r) = .ok (v, r) := by
  obtain ⟨h1, h2⟩ := hw
  have hlen : (12 : Nat) ≤ (le32 v.timestamp ++ (le64 v.energy_wh ++ r)).length := by
    simp; omega
  rw [deserialize]
  simp [checkRemaining_ok hlen, serBytes, List.append_assoc,
    rdU32LE_le32 h1, rdU64LE_le64 h2]

theorem SmaInvHeader.des_ser_ih (h : SmaInvHeader) (hw : h.Wf) (r : List Nat) :
    SmaInvHeader.deserialize (h.serBytes ++ r) = .ok (h, r) := by
  obtain ⟨h1, h2, h3, h4, h5, h6, h7, h8, h9⟩ := hw
  have hlen : (28 : Nat) ≤ (h.wordcount :: h.cls ::
      (h.dst.serBytes ++ (be16 h.dst_ctrl ++ (h.src.serBytes ++
      (be16 h.src_ctrl ++ (be16 h.error_code ++ (h.counters.serBytes ++
      (h.cmd.serBytes ++ r)))))))).length := by simp; omega
  rw [deserialize]
  simp [checkRemaining_ok hlen, serBytes, List.append_assoc, rdU8,
    Nat.mod_eq_of_lt h1,
    Nat.mod_eq_of_lt h2, SmaEndpoint.des_ser_ep h.dst h3, rdU16BE_be16 h4,
    SmaEndpoint.des_ser_ep h.src h5, rdU16BE_be16 h6, rdU16BE_be16 h7,
    SmaInvCounter.des_ser_ctr h.counters h8, SmaCmdWord.des_ser_cmd h.cmd h9]

theorem ObisValue.des_ser_obis (o : ObisValue) (ho : o.Wf) (r : List Nat) :
    ObisValue.deserialize (o.serBytes ++ r) = .ok (o, r) := by
  obtain ⟨hid, hidlt, hval⟩ := ho
  have hvok : o.validate = .ok () := ObisValue.validate_ok hid
  rcases hid with h1 | h1 | h1
  · have hne : o.id &&& 0xFF00 ≠ 0x0800 := by rw [h1]; decide
    have hv : o.value < 4294967296 := by
      rw [if_neg hne] at hval; exact hval
    have hc1 : (o.id = 0x90000000 ∨ o.id &&& 0xFF00 = 0x0400) = True := by
      simp [h1]
    have hlen : (8 : Nat) ≤ (be32 o.id ++ (be32 o.value ++ r)).length := by
      simp; omega
    rw [deserialize]
    simp [checkRemaining_ok hlen, serBytes, hc1, List.append_assoc,
      rdU32BE_be32 hidlt, rdU32BE_be32 hv, hvok]
  · have hne : o.id &&& 0xFF00 ≠ 0x0800 := by rw [h1]; decide
    have hv : o.value < 4294967296 := by
      rw [if_neg hne] at hval; exact hval
    have hlen : (8 : Nat) ≤ (be32 o.id ++ (be32 o.value ++ r)).length := by
      simp; omega
    rw [deserialize]
    simp [checkRemaining_ok hlen, serBytes, h1, List.append_assoc,
      rdU32BE_be32 hidlt, rdU32BE_be32 hv, hvok]
  · have h3 : o.id ≠ 0x90000000 := by
      intro hx; rw [hx] at h1
      exact absurd h1 (by decide)
    have h4 : o.id &&& 0xFF00 ≠ 0x0400 := by
      intro hx; rw [hx] at h1
      exact absurd h1 (by decide)
    have hv : o.value < 18446744073709551616 := by
      rw [if_pos h1] at hval; exact hval
    have hlen : (8 : Nat) ≤ (be32 o.id ++ (be64 o.value ++ r)).length := by
      simp; omega
    rw [deserialize]
    have hlen2 : (8 : Nat) ≤ (be64 o.value ++ r).length := by simp
    simp [checkRemaining_ok hlen, serBytes, h1, h3, h4, List.append_assoc,
      rdU32BE_be32 hidlt, checkRemaining_ok hlen2, rdU64BE_be64 hv, hvok]

theorem SmaPacketFooter.des_zero :
    SmaPacketFooter.deserialize (be32 0) = .ok () := by decide

/-! Energymeter message: loop lemmas and the round trip. -/

theorem ObisValue.serialized_len_le (o : ObisValue) : o.serialized_len ≤ 12 := by
  rw [serialized_len]
  split
  · omega
  · split <;> omega

theorem ObisValue.serialized_len_ge {o : ObisValue} (h : ValidId o.id) :
    8 ≤ o.serialized_len := by
  rw [serialized_len]
  rcases h with h1 | h1 | h1
  · rw [if_pos (Or.inl h1)]
  · rw [if_pos (Or.inr h1)]
  · have hno : ¬(o.id = 0x90000000 ∨ o.id &&& 0xFF00 = 0x0400) := by
      rintro (hx | hx)
      · rw [hx] at h1; exact absurd h1 (by decide)
      · rw [hx] at h1; exact absurd h1 (by decide)
    rw [if_neg hno, if_pos h1]
    omega

theorem sum_serialized_len_le (payload : List ObisValue) :
    (payload.map ObisValue.serialized_len).sum ≤ 12 * payload.length := by
  induction payload with
  | nil => simp
  | cons o rest ih =>
    simp only [List.map_cons, List.sum_cons, List.length_cons]
    have := o.serialized_len_le
    omega

theorem flatten_serBytes_length (payload : List ObisValue)
    (h : ∀ o ∈ payload, ObisValue.ValidId o.id) :
    ((payload.map ObisValue.serBytes).flatten).length =
      (payload.map ObisValue.serialized_len).sum := by
  induction payload with
  | nil => simp
  | cons o rest ih =>
    simp only [List.map_cons, List.flatten_cons, List.sum_cons,
      List.length_append]
    rw [ObisValue.serBytes_length_obis (h o (by simp)), ih]
    intro x hx
    exact h x (by simp [hx])

theorem map_comp_length_serBytes (payload : List ObisValue)
    (h : ∀ o ∈ payload, ObisValue.ValidId o.id) :
    (List.map (List.length ∘ ObisValue.serBytes) payload).sum =
      (List.map ObisValue.serialized_len payload).sum := by
  induction payload with
  | nil => simp
  | cons o rest ih =>
    simp only [List.map_cons, List.sum_cons, Function.comp_apply]
    rw [ObisValue.serBytes_length_obis (h o (by simp)),
      ih (fun x hx => h x (by simp [hx]))]

theorem SmaEmMessage.serPayload_eq (payload : List ObisValue) (cap : Nat)
    (out : List Nat) (hwf : ∀ o ∈ payload, o.Wf)
    (hb : out.length + (payload.map ObisValue.serialized_len).sum ≤ cap) :
    SmaEmMessage.serPayload payload ⟨cap, out⟩ =
      .ok ⟨cap, out ++ (payload.map ObisValue.serBytes).flatten⟩ := by
  induction payload generalizing out with
  | nil => simp [serPayload]
  | cons o rest ih =>
    have ho : o.Wf := hwf o (by simp)
    simp only [List.map_cons, List.sum_cons] at hb
    rw [serPayload, ObisValue.validate_ok ho.1, exOk_bind,
      ObisValue.serialize_eq_obis o ho cap out (by omega)]
    rw [exOk_bind, ih (out ++ o.serBytes) (fun x hx => hwf x (by simp [hx]))
      (by rw [List.length_append, ObisValue.serBytes_length_obis ho.1]; omega)]
    simp

theorem SmaEmMessage.serialized_len_eq_em (m : SmaEmMessage) :
    m.serialized_len = 32 + (m.payload.map ObisValue.serialized_len).sum := by
  simp only [serialized_len, LENGTH_MIN, SmaPacketHeader.LENGTH,
    SmaEmHeader.LENGTH, SmaPacketFooter.LENGTH]

theorem SmaEmMessage.serialize_eq_em (m : SmaEmMessage) (hwf : m.Wf)
    (hcap : m.payload.length ≤ 80) (cap : Nat) (hc : m.serialized_len ≤ cap) :
    m.serialize ⟨cap, []⟩ = .ok ⟨cap, m.serBytes⟩ := by
  obtain ⟨hsrc, hts, hpl⟩ := hwf
  have hser := m.serialized_len_eq_em
  have hS := sum_serialized_len_le m.payload
  simp only [serialize]
  rw [if_neg (by simp only [MAX_RECORD_COUNT]; omega)]
  have hck : m.serialized_len ≤ WCursor.remaining ⟨cap, []⟩ := by
    simp; omega
  rw [WCursor.checkRemainingOk hck, exOk_bind]
  have hflat := flatten_serBytes_length m.payload (fun o ho => (hpl o ho).1)
  rw [SmaPacketHeader.serialize_eq_ph _ _ _ (by
    rw [List.length_nil]; omega), exOk_bind]
  rw [SmaEmHeader.serialize_eq_emh _ _ _ (by
    rw [List.nil_append, SmaPacketHeader.serBytes_length_ph]
    omega), exOk_bind]
  rw [SmaEmMessage.serPayload_eq _ _ _ hpl (by
    rw [List.nil_append, List.length_append, SmaPacketHeader.serBytes_length_ph,
      SmaEmHeader.serBytes_length_emh]
    omega), exOk_bind]
  rw [SmaPacketFooter.serialize_eq_ft _ _ (by
    rw [List.nil_append, List.length_append, List.length_append,
      SmaPacketHeader.serBytes_length_ph, SmaEmHeader.serBytes_length_emh, hflat]
    omega)]
  rw [serBytes, List.nil_append, List.append_assoc, List.append_assoc]
  rfl

theorem SmaEmMessage.desPayload_eq (payload : List ObisValue)
    (hwf : ∀ o ∈ payload, o.Wf) :
    ∀ (left : Nat) (acc : List ObisValue), payload.length ≤ left →
    SmaEmMessage.desPayload 4 left acc
        ((payload.map ObisValue.serBytes).flatten ++ be32 0) =
      .ok (acc ++ payload, be32 0) := by
  induction payload with
  | nil =>
    intro left acc _
    rw [desPayload, if_neg (by simp [be32])]
    simp
  | cons o rest ih =>
    intro left acc hleft
    have ho : o.Wf := hwf o (by simp)
    have hrest : ∀ x ∈ rest, x.Wf := fun x hx => hwf x (by simp [hx])
    have hlo := ObisValue.serialized_len_ge ho.1
    have hcond : ((((o :: rest).map ObisValue.serBytes).flatten ++ be32 0)).length
        - 4 ≥ ObisValue.LENGTH_MIN := by
      simp only [List.map_cons, List.flatten_cons, List.append_assoc,
        List.length_append, ObisValue.serBytes_length_obis ho.1,
        ObisValue.LENGTH_MIN]
      simp
      omega
    cases left with
    | zero => simp at hleft
    | succ l =>
      rw [desPayload, if_pos hcond]
      simp only [List.map_cons, List.flatten_cons, List.append_assoc]
      rw [ObisValue.des_ser_obis o ho, exOk_bind, ObisValue.validate_ok ho.1,
        exOk_bind]
      show SmaEmMessage.desPayload 4 l (acc ++ [o])
          ((List.map ObisValue.serBytes rest).flatten ++ be32 0) =
        Except.ok (acc ++ o :: rest, be32 0)
      rw [ih hrest l (acc ++ [o]) (by simp at hleft ⊢; omega)]
      simp

theorem SmaPacketHeader.check_protocol_ok {h : SmaPacketHeader} {p : Nat}
    (hp : h.protocol = p) : h.check_protocol p = .ok () := by
  rw [check_protocol, if_neg (by simp [hp])]

theorem SmaInvHeader.check_wordcount_ok {h : SmaInvHeader} {d : Nat}
    (hw : h.wordcount * 4 = d) : h.check_wordcount d = .ok () := by
  rw [check_wordcount, if_pos hw]

theorem SmaInvHeader.check_class_ok {h : SmaInvHeader} {e : Nat}
    (hc : h.cls = e) : h.check_class e = .ok () := by
  rw [check_class, if_pos hc]

theorem SmaInvHeader.check_opcode_ok {h : SmaInvHeader} {e : Nat}
    (ho : h.cmd.opcode = e) : h.check_opcode e = .ok () := by
  rw [check_opcode, if_pos ho]

theorem SmaEmMessage.des_ser_em (m : SmaEmMessage) (hwf : m.Wf)
    (hcap : m.payload.length ≤ 80) :
    SmaEmMessage.deserialize m.serBytes = .ok m := by
  obtain ⟨hsrc, hts, hpl⟩ := hwf
  have hser := m.serialized_len_eq_em
  have hS := sum_serialized_len_le m.payload
  have hflat := flatten_serBytes_length m.payload (fun o ho => (hpl o ho).1)
  have hsplit : m.serBytes =
      SmaPacketHeader.serBytes
          { data_len := 10 + (m.payload.map ObisValue.serialized_len).sum,
            protocol := 0x6069 } ++
        (SmaEmHeader.serBytes { src := m.src, timestamp_ms := m.timestamp_ms } ++
          ((m.payload.map ObisValue.serBytes).flatten ++ be32 0)) := by
    rw [serBytes]
    rw [show m.serialized_len - SmaPacketHeader.LENGTH -
        SmaPacketFooter.LENGTH =
        10 + (m.payload.map ObisValue.serialized_len).sum by simp; omega]
    simp [List.append_assoc]
  rw [deserialize, hsplit]
  have hmap := map_comp_length_serBytes m.payload (fun o ho => (hpl o ho).1)
  have hck1 : (32 : Nat) ≤
      (SmaPacketHeader.serBytes
          { data_len := 10 + (m.payload.map ObisValue.serialized_len).sum,
            protocol := 0x6069 } ++
        (SmaEmHeader.serBytes { src := m.src, timestamp_ms := m.timestamp_ms } ++
          ((m.payload.map ObisValue.serBytes).flatten ++ be32 0))).length := by
    simp; omega
  rw [show SmaEmMessage.LENGTH_MIN = 32 from rfl, checkRemaining_ok hck1,
    exOk_bind]
  rw [SmaPacketHeader.des_ser_ph _ (by simp only []; omega) (by norm_num)]
  simp only [exOk_bind]
  rw [show SmaPacketHeader.check_protocol
      { data_len := 10 + (m.payload.map ObisValue.serialized_len).sum,
        protocol := 0x6069 } SmaPacketHeader.SMA_PROTOCOL_EM = .ok () by
    rw [SmaPacketHeader.check_protocol]; simp]
  simp only [exOk_bind]
  have hck2 : 10 + (m.payload.map ObisValue.serialized_len).sum ≤
      (SmaEmHeader.serBytes { src := m.src, timestamp_ms := m.timestamp_ms } ++
        ((m.payload.map ObisValue.serBytes).flatten ++ be32 0)).length := by
    simp [hmap]
  rw [checkRemaining_ok hck2, exOk_bind]
  have hpad : (SmaEmHeader.serBytes
        { src := m.src, timestamp_ms := m.timestamp_ms } ++
      ((m.payload.map ObisValue.serBytes).flatten ++ be32 0)).length -
      (10 + (m.payload.map ObisValue.serialized_len).sum) = 4 := by
    simp [hmap]
    omega
  rw [hpad]
  rw [SmaEmHeader.des_ser_emh _ ⟨hsrc, hts⟩]
  simp only [exOk_bind]
  rw [SmaEmMessage.desPayload_eq m.payload hpl MAX_RECORD_COUNT [] (by
    simp only [MAX_RECORD_COUNT]; omega)]
  simp only [exOk_bind]
  rw [SmaPacketFooter.des_zero]
  simp

/-! Identify message: serialization characterization and round trip. -/

theorem SmaInvIdentify.serialize_eq_id (m : SmaInvIdentify) (hm : m.Wf)
    (cap : Nat) (hc : SmaInvIdentify.LENGTH_MAX ≤ cap) :
    m.serialize ⟨cap, []⟩ = .ok ⟨cap, m.serBytes⟩ := by
  have hcap : (98 : Nat) ≤ cap := by simpa using hc
  cases hid : m.identity with
  | none =>
    simp only [serialize, serBytes, invHeader, hid, Option.isSome_none,
      Bool.false_eq_true, if_false, reduceIte, LENGTH_MIN, LENGTH_MAX,
      PAYLOAD_MIN, PAYLOAD_MAX, OPCODE, SmaPacketHeader.LENGTH,
      SmaPacketFooter.LENGTH, SmaInvHeader.LENGTH]
    rw [WCursor.checkRemainingOk (by simp; omega), exOk_bind,
      exPure_eq_ok, exOk_bind]
    rw [SmaPacketHeader.serialize_eq_ph _ _ _ (by rw [List.length_nil]; omega),
      exOk_bind]
    rw [SmaInvHeader.serialize_eq_ih _ _ _ (by
      rw [List.nil_append, SmaPacketHeader.serBytes_length_ph]; omega)]
    rw [exOk_bind]
    rw [SmaPacketFooter.serialize_eq_ft _ _ (by
      rw [WCursor.wrBytes]
      simp only []
      rw [List.length_append, List.length_append, List.nil_append,
        SmaPacketHeader.serBytes_length_ph, SmaInvHeader.serBytes_length_ih,
        List.length_map, List.length_replicate]
      omega)]
    rw [WCursor.wrBytes]
    simp only [List.append_assoc, List.nil_append]
  | some blob =>
    have hblen : blob.length = 48 := by
      have h5 := hm.2.2.2.2
      rw [hid] at h5
      exact h5.1
    simp only [serialize, serBytes, invHeader, hid, Option.isSome_some,
      reduceIte, LENGTH_MIN, LENGTH_MAX, PAYLOAD_MIN, PAYLOAD_MAX, OPCODE,
      SmaPacketHeader.LENGTH, SmaPacketFooter.LENGTH, SmaInvHeader.LENGTH]
    rw [WCursor.checkRemainingOk (by simp; omega), exOk_bind,
      exPure_eq_ok, exOk_bind]
    rw [SmaPacketHeader.serialize_eq_ph _ _ _ (by rw [List.length_nil]; omega),
      exOk_bind]
    rw [SmaInvHeader.serialize_eq_ih _ _ _ (by
      rw [List.nil_append, SmaPacketHeader.serBytes_length_ph]; omega)]
    rw [exOk_bind]
    rw [SmaPacketFooter.serialize_eq_ft _ _ (by
      rw [WCursor.wrBytes]
      simp only []
      rw [List.length_append, List.length_append, List.nil_append,
        SmaPacketHeader.serBytes_length_ph, SmaInvHeader.serBytes_length_ih,
        List.length_map, hblen]
      omega)]
    rw [WCursor.wrBytes]
    simp only [List.append_assoc, List.nil_append]

theorem SmaInvIdentify.des_ser_id (m : SmaInvIdentify) (hm : m.Wf) :
    SmaInvIdentify.deserialize m.serBytes = .ok m := by
  obtain ⟨h1, h2, h3, h4, h5⟩ := hm
  cases hid : m.identity with
  | none =>
    rw [deserialize, serBytes]
    simp only [hid, invHeader, Option.isSome_none, Bool.false_eq_true,
      if_false, reduceIte, LENGTH_MIN, LENGTH_MAX, PAYLOAD_MIN, PAYLOAD_MAX,
      OPCODE, SmaPacketHeader.LENGTH, SmaPacketFooter.LENGTH,
      SmaInvHeader.LENGTH, List.map_replicate, Nat.zero_mod]
    rw [checkRemaining_ok (by
      rw [List.length_append, List.length_append, List.length_append,
        SmaPacketHeader.serBytes_length_ph, SmaInvHeader.serBytes_length_ih,
        List.length_replicate, be32_length]), exOk_bind]
    rw [List.append_assoc, List.append_assoc]
    rw [SmaPacketHeader.des_ser_ph _ (by norm_num) (by norm_num), exOk_bind]
    rw [SmaPacketHeader.check_protocol_ok rfl, exOk_bind]
    rw [checkRemaining_ok (by
      rw [List.length_append, List.length_append,
        SmaInvHeader.serBytes_length_ih, List.length_replicate, be32_length]
      norm_num), exOk_bind]
    rw [SmaInvHeader.des_ser_ih _
      ⟨by norm_num, by norm_num, h1, by norm_num, h2, by norm_num, h3, h4,
        by norm_num, by norm_num⟩, exOk_bind]
    rw [SmaInvHeader.check_wordcount_ok (by norm_num), exOk_bind]
    rw [SmaInvHeader.check_class_ok rfl, exOk_bind]
    rw [SmaInvHeader.check_opcode_ok rfl, exOk_bind]
    rw [if_neg (by norm_num)]
    rw [exPure_eq_ok, exOk_bind]
    rw [List.drop_left' (show (List.replicate 8 (0 : Nat)).length = 8 by simp),
      SmaPacketFooter.des_zero, exOk_bind]
    simp only [exPure_eq_ok, Except.ok.injEq]
    rw [← hid]
  | some blob =>
    have hblen : blob.length = 48 := by
      rw [hid] at h5
      exact h5.1
    have hbmap : blob.map (fun x => x % 256) = blob :=
      (List.map_congr_left (fun b hb =>
        Nat.mod_eq_of_lt ((hid ▸ h5 : OptBytesWf 48 (some blob)).2 b hb))).trans
        (List.map_id blob)
    rw [deserialize, serBytes]
    simp only [hid, invHeader, Option.isSome_some, reduceIte, LENGTH_MIN,
      LENGTH_MAX, PAYLOAD_MIN, PAYLOAD_MAX, OPCODE, SmaPacketHeader.LENGTH,
      SmaPacketFooter.LENGTH, SmaInvHeader.LENGTH]
    rw [hbmap]
    rw [checkRemaining_ok (by
      rw [List.length_append, List.length_append, List.length_append,
        SmaPacketHeader.serBytes_length_ph, SmaInvHeader.serBytes_length_ih,
        hblen, be32_length]
      norm_num), exOk_bind]
    rw [List.append_assoc, List.append_assoc]
    rw [SmaPacketHeader.des_ser_ph _ (by norm_num) (by norm_num), exOk_bind]
    rw [SmaPacketHeader.check_protocol_ok rfl, exOk_bind]
    rw [checkRemaining_ok (by
      rw [List.length_append, List.length_append,
        SmaInvHeader.serBytes_length_ih, hblen, be32_length]
      norm_num), exOk_bind]
    rw [SmaInvHeader.des_ser_ih _
      ⟨by norm_num, by norm_num, h1, by norm_num, h2, by norm_num, h3, h4,
        by norm_num, by norm_num⟩, exOk_bind]
    rw [SmaInvHeader.check_wordcount_ok (by norm_num), exOk_bind]
    rw [SmaInvHeader.check_class_ok rfl, exOk_bind]
    rw [SmaInvHeader.check_opcode_ok rfl, exOk_bind]
    rw [if_pos (by norm_num)]
    rw [rdBytes_append hblen]
    rw [exPure_eq_ok, exOk_bind]
    rw [SmaPacketFooter.des_zero, exOk_bind]
    simp only [exPure_eq_ok, Except.ok.injEq]
    rw [← hid]

/-! Login message: the password obfuscation fold, serialization
characterization and round trip. -/

theorem WCursor.foldl_wrU8_obf (pw : List Nat) (w : WCursor) :
    pw.foldl (fun w c => w.wrU8 (c + 136)) w =
      ⟨w.cap, w.out ++ pw.map (fun c => (c + 136) % 256)⟩ := by
  induction pw generalizing w with
  | nil => simp
  | cons c rest ih =>
    simp only [List.foldl_cons, List.map_cons]
    rw [ih]
    simp [WCursor.wrU8]

theorem SmaInvLogin.serialize_eq_login (m : SmaInvLogin) (hm : m.Wf) (cap : Nat)
    (hc : SmaInvLogin.LENGTH_MAX ≤ cap) :
    m.serialize ⟨cap, []⟩ = .ok ⟨cap, m.serBytes⟩ := by
  have hcap : (78 : Nat) ≤ cap := by simpa using hc
  cases hid : m.password with
  | none =>
    simp only [serialize, serBytes, invHeader, hid, Option.isSome_none,
      Bool.false_eq_true, if_false, reduceIte, LENGTH_MIN, LENGTH_MAX,
      PAYLOAD_MIN, PAYLOAD_MAX, OPCODE, SmaPacketHeader.LENGTH,
      SmaPacketFooter.LENGTH, SmaInvHeader.LENGTH]
    rw [WCursor.checkRemainingOk (by simp; omega), exOk_bind,
      exPure_eq_ok, exOk_bind]
    rw [SmaPacketHeader.serialize_eq_ph _ _ _ (by rw [List.length_nil]; omega),
      exOk_bind]
    rw [SmaInvHeader.serialize_eq_ih _ _ _ (by
      rw [List.nil_append, SmaPacketHeader.serBytes_length_ph]; omega)]
    rw [exOk_bind]
    rw [WCursor.wrLE32, WCursor.wrLE32, WCursor.wrLE32, WCursor.wrLE32]
    rw [SmaPacketFooter.serialize_eq_ft _ _ (by
      simp only []
      rw [List.length_append, List.length_append, List.length_append,
        List.length_append, List.length_append, List.nil_append,
        SmaPacketHeader.serBytes_length_ph, SmaInvHeader.serBytes_length_ih,
        le32_length, le32_length, le32_length, le32_length]
      omega)]
    simp only [List.append_assoc, List.nil_append, List.append_nil]
  | some pw =>
    have hplen : pw.length = 12 :=
      (hid ▸ hm.2.2.2.2.2.2.2 : OptBytesWf 12 (some pw)).1
    simp only [serialize, serBytes, invHeader, hid, Option.isSome_some,
      reduceIte, LENGTH_MIN, LENGTH_MAX, PAYLOAD_MIN, PAYLOAD_MAX, OPCODE,
      SmaPacketHeader.LENGTH, SmaPacketFooter.LENGTH, SmaInvHeader.LENGTH]
    rw [WCursor.checkRemainingOk (by simp; omega), exOk_bind,
      exPure_eq_ok, exOk_bind]
    rw [SmaPacketHeader.serialize_eq_ph _ _ _ (by rw [List.length_nil]; omega),
      exOk_bind]
    rw [SmaInvHeader.serialize_eq_ih _ _ _ (by
      rw [List.nil_append, SmaPacketHeader.serBytes_length_ph]; omega)]
    rw [exOk_bind]
    rw [WCursor.wrLE32, WCursor.wrLE32, WCursor.wrLE32, WCursor.wrLE32]
    rw [WCursor.foldl_wrU8_obf]
    rw [SmaPacketFooter.serialize_eq_ft _ _ (by
      simp only []
      rw [List.length_append, List.length_append, List.length_append,
        List.length_append, List.length_append, List.length_append,
        List.nil_append, SmaPacketHeader.serBytes_length_ph,
        SmaInvHeader.serBytes_length_ih, le32_length, le32_length, le32_length,
        le32_length, List.length_map, hplen]
      omega)]
    simp only [List.append_assoc, List.nil_append]
    by_cases he : m.error_code = 0
    · rw [if_pos he, if_pos he]
    · rw [if_neg he, if_neg he]

theorem SmaInvLogin.des_ser_login (m : SmaInvLogin) (hm : m.Wf) :
    SmaInvLogin.deserialize m.serBytes = .ok m := by
  obtain ⟨h1, h2, h3, h4, h5, h6, h7, h8⟩ := hm
  cases hid : m.password with
  | none =>
    rw [deserialize, serBytes]
    simp only [hid, invHeader, Option.isSome_none, Bool.false_eq_true,
      if_false, reduceIte, LENGTH_MIN, LENGTH_MAX, PAYLOAD_MIN, PAYLOAD_MAX,
      PASSWORD_LEN, OPCODE, SmaPacketHeader.LENGTH, SmaPacketFooter.LENGTH,
      SmaInvHeader.LENGTH, List.nil_append]
    rw [checkRemaining_ok (by simp), exOk_bind]
    simp only [List.append_assoc, List.nil_append]
    rw [SmaPacketHeader.des_ser_ph _ (by norm_num) (by norm_num), exOk_bind]
    rw [SmaPacketHeader.check_protocol_ok rfl, exOk_bind]
    rw [checkRemaining_ok (by simp), exOk_bind]
    rw [SmaInvHeader.des_ser_ih _
      ⟨by norm_num, by norm_num, h1, by norm_num, h2, by norm_num, h3, h4,
        by norm_num, by norm_num⟩, exOk_bind]
    rw [SmaInvHeader.check_wordcount_ok (by norm_num), exOk_bind]
    rw [if_pos (by norm_num)]
    rw [SmaInvHeader.check_class_ok rfl, exOk_bind]
    rw [SmaInvHeader.check_opcode_ok rfl, exOk_bind]
    rw [rdU32LE_le32 h5, rdU32LE_le32 h6, rdU32LE_le32 h7,
      rdU32LE_le32 (by norm_num)]
    rw [if_neg (by norm_num)]
    rw [exPure_eq_ok, exOk_bind]
    rw [if_neg (by norm_num)]
    rw [exPure_eq_ok, exOk_bind]
    rw [SmaPacketFooter.des_zero, exOk_bind]
    simp only [exPure_eq_ok, Except.ok.injEq]
    rw [← hid]
  | some pw =>
    have hplen : pw.length = 12 := (hid ▸ h8 : OptBytesWf 12 (some pw)).1
    have hpwmap : (pw.map (fun c => (c + 136) % 256)).map
        (fun b => (b + 120) % 256) = pw := by
      rw [List.map_map]
      refine (List.map_congr_left fun b hb => ?_).trans (List.map_id pw)
      have hb2 := (hid ▸ h8 : OptBytesWf 12 (some pw)).2 b hb
      show ((b + 136) % 256 + 120) % 256 = b
      omega
    rw [deserialize, serBytes]
    simp only [hid, invHeader, Option.isSome_some, reduceIte, LENGTH_MIN,
      LENGTH_MAX, PAYLOAD_MIN, PAYLOAD_MAX, PASSWORD_LEN, OPCODE,
      SmaPacketHeader.LENGTH, SmaPacketFooter.LENGTH, SmaInvHeader.LENGTH]
    rw [checkRemaining_ok (by simp [hplen]), exOk_bind]
    simp only [List.append_assoc]
    rw [SmaPacketHeader.des_ser_ph _ (by norm_num) (by norm_num), exOk_bind]
    rw [SmaPacketHeader.check_protocol_ok rfl, exOk_bind]
    rw [checkRemaining_ok (by simp [hplen]), exOk_bind]
    rw [SmaInvHeader.des_ser_ih _
      ⟨by norm_num, by split <;> norm_num, h1, by norm_num, h2, by norm_num,
        h3, h4, by norm_num, by norm_num⟩, exOk_bind]
    rw [SmaInvHeader.check_wordcount_ok (by norm_num), exOk_bind]
    rw [if_neg (by by_cases he : m.error_code = 0 <;> simp [he])]
    rw [SmaInvHeader.check_opcode_ok rfl, exOk_bind]
    rw [rdU32LE_le32 h5, rdU32LE_le32 h6, rdU32LE_le32 h7,
      rdU32LE_le32 (by norm_num)]
    rw [if_neg (by norm_num)]
    rw [exPure_eq_ok, exOk_bind]
    rw [if_pos (by norm_num)]
    rw [rdBytes_append (by rw [List.length_map, hplen])]
    simp only [exPure_eq_ok, exOk_bind]
    rw [SmaPacketFooter.des_zero, exOk_bind]
    simp only [exPure_eq_ok, Except.ok.injEq]
    rw [hpwmap, ← hid]

/-! Logout message: serialization characterization and round trip. -/

theorem SmaInvLogout.serialize_eq_logout (m : SmaInvLogout) (cap : Nat)
    (hc : SmaInvLogout.LENGTH ≤ cap) :
    m.serialize ⟨cap, []⟩ = .ok ⟨cap, m.serBytes⟩ := by
  have hcap : (54 : Nat) ≤ cap := by simpa using hc
  simp only [serialize, serBytes, invHeader, OPCODE, LENGTH,
    SmaPacketHeader.LENGTH, SmaPacketFooter.LENGTH, SmaInvHeader.LENGTH]
  rw [WCursor.checkRemainingOk (by simp; omega), exOk_bind]
  rw [SmaPacketHeader.serialize_eq_ph _ _ _ (by rw [List.length_nil]; omega),
    exOk_bind]
  rw [SmaInvHeader.serialize_eq_ih _ _ _ (by
    rw [List.nil_append, SmaPacketHeader.serBytes_length_ph]; omega)]
  rw [exOk_bind]
  rw [WCursor.wrLE32]
  rw [SmaPacketFooter.serialize_eq_ft _ _ (by
    simp only []
    rw [List.length_append, List.length_append, List.nil_append,
      SmaPacketHeader.serBytes_length_ph, SmaInvHeader.serBytes_length_ih,
      le32_length]
    omega)]
  simp only [List.append_assoc, List.nil_append]

theorem SmaInvLogout.des_ser_logout (m : SmaInvLogout) (hm : m.Wf) :
    SmaInvLogout.deserialize m.serBytes = .ok m := by
  obtain ⟨h1, h2, h3, h4⟩ := hm
  rw [deserialize, serBytes]
  simp only [invHeader, OPCODE, LENGTH, SmaPacketHeader.LENGTH,
    SmaPacketFooter.LENGTH, SmaInvHeader.LENGTH]
  rw [checkRemaining_ok (by simp), exOk_bind]
  simp only [List.append_assoc]
  rw [SmaPacketHeader.des_ser_ph _ (by norm_num) (by norm_num), exOk_bind]
  rw [SmaPacketHeader.check_protocol_ok rfl, exOk_bind]
  rw [checkRemaining_ok (by simp), exOk_bind]
  rw [SmaInvHeader.des_ser_ih _
    ⟨by norm_num, by norm_num, h1, by norm_num, h2, by norm_num, h3, h4,
      by norm_num, by norm_num⟩, exOk_bind]
  rw [SmaInvHeader.check_wordcount_ok (by norm_num), exOk_bind]
  rw [SmaInvHeader.check_class_ok rfl, exOk_bind]
  rw [SmaInvHeader.check_opcode_ok rfl, exOk_bind]
  rw [rdU32LE_le32 (by norm_num)]
  rw [if_neg (by norm_num)]
  rw [SmaPacketFooter.des_zero, exOk_bind]
  simp only [exPure_eq_ok, exOk_bind, Except.ok.injEq]

/-! GetDayData message: record loop lemmas and the round trip. -/

theorem gdd_flatten_length (records : List SmaInvMeterValue) :
    ((records.map SmaInvMeterValue.serBytes).flatten).length =
      12 * records.length := by
  induction records with
  | nil => simp
  | cons v rest ih =>
    simp only [List.map_cons, List.flatten_cons, List.length_append,
      SmaInvMeterValue.serBytes_length_mv, List.length_cons, ih]
    omega

theorem SmaInvGetDayData.serRecords_eq (records : List SmaInvMeterValue)
    (cap : Nat) (out : List Nat)
    (hb : out.length + 12 * records.length ≤ cap) :
    SmaInvGetDayData.serRecords records ⟨cap, out⟩ =
      .ok ⟨cap, out ++ (records.map SmaInvMeterValue.serBytes).flatten⟩ := by
  induction records generalizing out with
  | nil => simp [serRecords]
  | cons v rest ih =>
    simp only [List.length_cons] at hb
    rw [serRecords, SmaInvMeterValue.serialize_eq_mv v cap out (by omega),
      exOk_bind]
    rw [ih (out ++ v.serBytes)
      (by rw [List.length_append, SmaInvMeterValue.serBytes_length_mv]; omega)]
    simp

theorem SmaInvGetDayData.serialized_len_eq_gdd (m : SmaInvGetDayData) :
    m.serialized_len = 58 + m.records.length * 12 := by
  simp only [serialized_len, LENGTH_MIN, SmaPacketHeader.LENGTH,
    SmaInvHeader.LENGTH, SmaPacketFooter.LENGTH, SmaInvMeterValue.LENGTH]

theorem SmaInvGetDayData.desRecords_eq (records : List SmaInvMeterValue)
    (hwf : ∀ v ∈ records, v.Wf) :
    ∀ (left : Nat) (acc : List SmaInvMeterValue), records.length ≤ left →
    SmaInvGetDayData.desRecords 4 left acc
        ((records.map SmaInvMeterValue.serBytes).flatten ++ be32 0) =
      .ok (acc ++ records, be32 0) := by
  induction records with
  | nil =>
    intro left acc _
    rw [desRecords, if_neg (by simp [be32])]
    simp
  | cons v rest ih =>
    intro left acc hleft
    have hv : v.Wf := hwf v (by simp)
    have hrest : ∀ x ∈ rest, x.Wf := fun x hx => hwf x (by simp [hx])
    have hcond :
        ((((v :: rest).map SmaInvMeterValue.serBytes).flatten ++
          be32 0)).length - 4 ≥ SmaInvMeterValue.LENGTH := by
      simp only [List.map_cons, List.flatten_cons, List.append_assoc,
        List.length_append, SmaInvMeterValue.serBytes_length_mv,
        SmaInvMeterValue.LENGTH]
      simp
      omega
    cases left with
    | zero => simp at hleft
    | succ l =>
      rw [desRecords, if_pos hcond]
      simp only [List.map_cons, List.flatten_cons, List.append_assoc]
      rw [SmaInvMeterValue.des_ser_mv v hv, exOk_bind]
      show SmaInvGetDayData.desRecords 4 l (acc ++ [v])
          ((List.map SmaInvMeterValue.serBytes rest).flatten ++ be32 0) =
        Except.ok (acc ++ v :: rest, be32 0)
      rw [ih hrest l (acc ++ [v]) (by simp at hleft ⊢; omega)]
      simp

theorem SmaInvGetDayData.serialize_eq_gdd (m : SmaInvGetDayData) (hwf : m.Wf)
    (hcap : m.records.length ≤ 81) (cap : Nat)
    (hc : m.serialized_len ≤ cap) :
    m.serialize ⟨cap, []⟩ = .ok ⟨cap, m.serBytes⟩ := by
  obtain ⟨h1, h2, h3, h4, h5, h6, h7⟩ := hwf
  have hser := m.serialized_len_eq_gdd
  have hflat := gdd_flatten_length m.records
  simp only [serialize]
  rw [if_neg (by simp only [MAX_RECORD_COUNT]; omega)]
  have hck : m.serialized_len ≤ WCursor.remaining ⟨cap, []⟩ := by
    simp; omega
  rw [WCursor.checkRemainingOk hck, exOk_bind]
  rw [SmaPacketHeader.serialize_eq_ph _ _ _ (by
    rw [List.length_nil]; omega), exOk_bind]
  rw [SmaInvHeader.serialize_eq_ih _ _ _ (by
    rw [List.nil_append, SmaPacketHeader.serBytes_length_ph]
    omega), exOk_bind]
  rw [WCursor.wrLE32, WCursor.wrLE32]
  rw [SmaInvGetDayData.serRecords_eq _ _ _ (by
    simp only []
    rw [List.nil_append, List.length_append, List.length_append,
      List.length_append, SmaPacketHeader.serBytes_length_ph,
      SmaInvHeader.serBytes_length_ih, le32_length, le32_length]
    omega), exOk_bind]
  rw [SmaPacketFooter.serialize_eq_ft _ _ (by
    simp only []
    rw [List.nil_append, List.length_append, List.length_append,
      List.length_append, List.length_append,
      SmaPacketHeader.serBytes_length_ph, SmaInvHeader.serBytes_length_ih,
      le32_length, le32_length, hflat]
    omega)]
  rw [serBytes, invHeader, List.nil_append, List.append_assoc,
    List.append_assoc, List.append_assoc, List.append_assoc]
  by_cases hre : m.records.isEmpty = true
  · rw [if_pos hre, if_pos hre, if_pos hre]
    rfl
  · rw [if_neg hre, if_neg hre, if_neg hre]
    rfl

theorem SmaInvGetDayData.des_ser_gdd (m : SmaInvGetDayData) (hwf : m.Wf)
    (hcap : m.records.length ≤ 81) :
    SmaInvGetDayData.deserialize m.serBytes = .ok m := by
  obtain ⟨h1, h2, h3, h4, h5, h6, h7⟩ := hwf
  have hser := m.serialized_len_eq_gdd
  have hflat := gdd_flatten_length m.records
  have hsplit : m.serBytes =
      SmaPacketHeader.serBytes
          { data_len := 36 + m.records.length * 12,
            protocol := SmaPacketHeader.SMA_PROTOCOL_INV } ++
        ((m.invHeader (36 + m.records.length * 12)).serBytes ++
          (le32 m.start_time_idx ++ (le32 m.end_time_idx ++
            ((m.records.map SmaInvMeterValue.serBytes).flatten ++
              be32 0)))) := by
    rw [serBytes]
    rw [show m.serialized_len - SmaPacketHeader.LENGTH -
        SmaPacketFooter.LENGTH = 36 + m.records.length * 12 by
      simp; omega]
    simp [List.append_assoc]
  rw [deserialize, hsplit]
  have hck1 : (58 : Nat) ≤
      (SmaPacketHeader.serBytes
          { data_len := 36 + m.records.length * 12,
            protocol := SmaPacketHeader.SMA_PROTOCOL_INV } ++
        ((m.invHeader (36 + m.records.length * 12)).serBytes ++
          (le32 m.start_time_idx ++ (le32 m.end_time_idx ++
            ((m.records.map SmaInvMeterValue.serBytes).flatten ++
              be32 0))))).length := by
    simp only [List.length_append, SmaPacketHeader.serBytes_length_ph,
      SmaInvHeader.serBytes_length_ih, le32_length, be32_length, hflat]
    omega
  rw [show SmaInvGetDayData.LENGTH_MIN = 58 from rfl,
    checkRemaining_ok hck1, exOk_bind]
  rw [SmaPacketHeader.des_ser_ph _ (by simp only []; omega) (by norm_num),
    exOk_bind]
  simp only []
  rw [SmaPacketHeader.check_protocol_ok rfl, exOk_bind]
  have hck2 : 36 + m.records.length * 12 ≤
      ((m.invHeader (36 + m.records.length * 12)).serBytes ++
        (le32 m.start_time_idx ++ (le32 m.end_time_idx ++
          ((m.records.map SmaInvMeterValue.serBytes).flatten ++
            be32 0)))).length := by
    simp only [List.length_append, SmaInvHeader.serBytes_length_ih,
      le32_length, be32_length, hflat]
    omega
  rw [checkRemaining_ok hck2, exOk_bind]
  have hpad : ((m.invHeader (36 + m.records.length * 12)).serBytes ++
        (le32 m.start_time_idx ++ (le32 m.end_time_idx ++
          ((m.records.map SmaInvMeterValue.serBytes).flatten ++
            be32 0)))).length - (36 + m.records.length * 12) = 4 := by
    simp only [List.length_append, SmaInvHeader.serBytes_length_ih,
      le32_length, be32_length, hflat]
    omega
  rw [hpad]
  rw [SmaInvHeader.des_ser_ih _
    ⟨by simp only [invHeader]; omega, by simp only [invHeader]; norm_num,
      by simp only [invHeader]; exact h1,
      by simp only [invHeader]; split <;> norm_num,
      by simp only [invHeader]; exact h2, by simp only [invHeader]; norm_num,
      by simp only [invHeader]; exact h3, by simp only [invHeader]; exact h4,
      by simp only [invHeader]; split <;> norm_num,
      by simp only [invHeader]; norm_num⟩, exOk_bind]
  rw [SmaInvHeader.check_wordcount_ok (by simp only [invHeader]; omega),
    exOk_bind]
  rw [SmaInvHeader.check_class_ok (by simp only [invHeader]), exOk_bind]
  rw [SmaInvHeader.check_opcode_ok (by simp only [invHeader]), exOk_bind]
  rw [rdU32LE_le32 h5, rdU32LE_le32 h6]
  rw [SmaInvGetDayData.desRecords_eq m.records h7 MAX_RECORD_COUNT []
    (by simp only [MAX_RECORD_COUNT]; omega), exOk_bind]
  rw [SmaPacketFooter.des_zero, exOk_bind]
  simp only [exPure_eq_ok, Except.ok.injEq, List.nil_append]
  simp [invHeader]

/-! Helper lemmas for the claim theorems: password string processing,
packet-header decoding of arbitrary wire length fields, invalid OBIS ids,
footer padding characterization, decoder record-cap overflow and the
client reassembly loop. -/

theorem pw_go_ok (l : List Nat) (h : ∀ c ∈ l, c < 128) :
    SmaInvLogin.pw_from_str_go l = .ok l := by
  induction l with
  | nil => rfl
  | cons c rest ih =>
    have hc := h c (by simp)
    rw [SmaInvLogin.pw_from_str_go, if_pos hc,
      ih (fun x hx => h x (by simp [hx]))]
    simp [Except.map, Nat.mod_eq_of_lt (show c < 256 by omega)]

theorem pw_go_err (l : List Nat) (h : ∃ c ∈ l, 128 ≤ c) :
    SmaInvLogin.pw_from_str_go l = .error .mk := by
  induction l with
  | nil => simp at h
  | cons c rest ih =>
    by_cases hc : c < 128
    · obtain ⟨x, hx, hxge⟩ := h
      rcases List.mem_cons.mp hx with rfl | hx'
      · omega
      · rw [SmaInvLogin.pw_from_str_go, if_pos hc, ih ⟨x, hx', hxge⟩]
        rfl
    · rw [SmaInvLogin.pw_from_str_go, if_neg hc]

theorem SmaPacketHeader.des_wire (v p : Nat) (hv : v < 65536)
    (hp : p < 65536) (r : List Nat) :
    SmaPacketHeader.deserialize
        (be32 0x534D4100 ++ be16 4 ++ be16 0x02A0 ++ be32 1 ++ be16 v ++
          be16 0x10 ++ be16 p ++ r) =
      .ok ({ data_len := (v + 65534) % 65536, protocol := p }, r) := by
  have hlen : (18 : Nat) ≤ (be32 1397571840 ++ (be16 4 ++ (be16 672 ++
      (be32 1 ++ (be16 v ++ (be16 16 ++ (be16 p ++ r))))))).length := by
    simp
    omega
  rw [deserialize]
  simp [checkRemaining_ok hlen, List.append_assoc,
    rdU32BE_be32 (show (0x534D4100 : Nat) < 4294967296 by norm_num),
    rdU32BE_be32 (show (1 : Nat) < 4294967296 by norm_num),
    rdU16BE_be16 (show (4 : Nat) < 65536 by norm_num),
    rdU16BE_be16 (show (0x02A0 : Nat) < 65536 by norm_num),
    rdU16BE_be16 (show (0x10 : Nat) < 65536 by norm_num),
    rdU16BE_be16 hv, rdU16BE_be16 hp]

theorem ObisValue.serialize_invalid {o : ObisValue}
    (h : ¬ ObisValue.ValidId o.id) (w : WCursor) :
    o.serialize w = .error (.UnsupportedObisId o.id) := by
  rw [serialize, validate,
    if_neg (show ¬ (o.id = 0x90000000 ∨ o.id &&& 0xFF00 = 0x0400 ∨
      o.id &&& 0xFF00 = 0x0800) from h)]
  rfl

theorem ObisValue.deserialize_invalid {i : Nat}
    (h : ¬ ObisValue.ValidId i) (hi : i < 4294967296) (r : List Nat)
    (hr : 4 ≤ r.length) :
    ObisValue.deserialize (be32 i ++ r) = .error (.UnsupportedObisId i) := by
  have h1 : ¬ (i = 0x90000000 ∨ i &&& 0xFF00 = 0x0400) := by
    rintro (hx | hx)
    · exact h (Or.inl hx)
    · exact h (Or.inr (Or.inl hx))
  have h2 : ¬ (i &&& 0xFF00 = 0x0800) := fun hx => h (Or.inr (Or.inr hx))
  rw [deserialize]
  rw [checkRemaining_ok (by simp; omega), exOk_bind]
  rw [rdU32BE_be32 hi]
  simp only []
  rw [if_neg h1, if_neg h2]
  rfl

@[simp] theorem exThrow_eq_error {ε α : Type} (e : ε) :
    (throw e : Except ε α) = .error e := rfl

theorem SmaPacketFooter.padLoop_ok_char :
    ∀ (n : Nat) (bs : List Nat), bs.length = n →
    ∀ t, SmaPacketFooter.padLoop bs = .ok t →
      t.length < 4 ∧ ∃ k, bs = List.replicate k 0 ++ t ∧ k % 4 = 0 := by
  intro n
  induction n using Nat.strong_induction_on with
  | _ n ih =>
    intro bs hlen t h
    rcases bs with _ | ⟨b0, _ | ⟨b1, _ | ⟨b2, _ | ⟨b3, r⟩⟩⟩⟩
    · cases h
      exact ⟨by norm_num, 0, rfl, rfl⟩
    · cases h
      exact ⟨by norm_num, 0, rfl, rfl⟩
    · cases h
      exact ⟨by norm_num, 0, rfl, rfl⟩
    · cases h
      exact ⟨by norm_num, 0, rfl, rfl⟩
    · rw [padLoop] at h
      by_cases hp : 16777216 * b0 + 65536 * b1 + 256 * b2 + b3 ≠ 0
      · rw [if_pos hp] at h
        cases h
      · rw [if_neg hp] at h
        have hz : b0 = 0 ∧ b1 = 0 ∧ b2 = 0 ∧ b3 = 0 := by omega
        obtain ⟨rfl, rfl, rfl, rfl⟩ := hz
        obtain ⟨ht, k, hk, hk4⟩ :=
          ih r.length (by simp at hlen; omega) r rfl t h
        refine ⟨ht, k + 4, ?_, by omega⟩
        rw [hk]
        rfl

theorem SmaPacketFooter.padLoop_replicate (n : Nat) :
    SmaPacketFooter.padLoop (List.replicate n 0) =
      .ok (List.replicate (n % 4) 0) := by
  induction n using Nat.strong_induction_on with
  | _ n ih =>
    rcases n with _ | ⟨_ | ⟨_ | ⟨_ | m⟩⟩⟩
    · rfl
    · rfl
    · rfl
    · rfl
    · show SmaPacketFooter.padLoop (0 :: 0 :: 0 :: 0 :: List.replicate m 0) =
        .ok (List.replicate ((m + 4) % 4) 0)
      rw [padLoop, if_neg (by norm_num), ih m (by omega),
        show (m + 4) % 4 = m % 4 from by omega]

theorem SmaPacketFooter.des_replicate_even (n : Nat) (h2 : 2 ≤ n)
    (he : n % 2 = 0) :
    SmaPacketFooter.deserialize (List.replicate n 0) = .ok () := by
  rw [deserialize, checkRemaining_ok (by simp; omega), exOk_bind,
    padLoop_replicate, exOk_bind]
  have h4 : n % 4 = 0 ∨ n % 4 = 2 := by omega
  rcases h4 with h4 | h4 <;> rw [h4] <;> rfl

theorem SmaPacketFooter.des_replicate_odd (n : Nat) (h2 : 2 ≤ n)
    (ho : n % 2 = 1) :
    SmaPacketFooter.deserialize (List.replicate n 0) =
      .error (.BufferNotConsumed (n % 4)) := by
  rw [deserialize, checkRemaining_ok (by simp; omega), exOk_bind,
    padLoop_replicate, exOk_bind]
  have h4 : n % 4 = 1 ∨ n % 4 = 3 := by omega
  rcases h4 with h4 | h4 <;> rw [h4] <;> rfl

theorem SmaPacketFooter.des_nonzero_word (w : Nat) (hw : w < 4294967296)
    (h0 : w ≠ 0) (r : List Nat) :
    SmaPacketFooter.deserialize (be32 w ++ r) =
      .error (.InvalidPadding w) := by
  have hpl : SmaPacketFooter.padLoop (be32 w ++ r) =
      .error (.InvalidPadding w) := by
    show SmaPacketFooter.padLoop ((w / 16777216 % 256) :: (w / 65536 % 256) ::
      (w / 256 % 256) :: (w % 256) :: r) = _
    rw [padLoop]
    have hrec : 16777216 * (w / 16777216 % 256) + 65536 * (w / 65536 % 256) +
        256 * (w / 256 % 256) + w % 256 = w := by omega
    rw [if_pos (by omega), hrec]
  rw [deserialize, checkRemaining_ok (by simp; omega), exOk_bind, hpl,
    exError_bind]

theorem SmaPacketFooter.des_ok_iff (bs : List Nat) :
    SmaPacketFooter.deserialize bs = .ok () ↔
      2 ≤ bs.length ∧ bs.length % 2 = 0 ∧ ∀ b ∈ bs, b = 0 := by
  constructor
  · intro h
    rw [deserialize] at h
    simp only [LENGTH_SHORT] at h
    by_cases hlen : bs.length < 2
    · rw [checkRemaining, if_pos hlen] at h
      simp at h
    · rw [checkRemaining_ok (by omega), exOk_bind] at h
      cases hp : SmaPacketFooter.padLoop bs with
      | error e => rw [hp] at h; simp at h
      | ok t =>
        rw [hp, exOk_bind] at h
        obtain ⟨ht4, k, hbs, hk4⟩ :=
          SmaPacketFooter.padLoop_ok_char bs.length bs rfl t hp
        by_cases ht2 : t.length = 2
        · obtain ⟨x, y, rfl⟩ := List.length_eq_two.mp ht2
          rw [if_pos (show ([x, y] : List Nat).length = 2 from rfl)] at h
          rw [show rdU16BE [x, y] = (256 * x + y, []) from rfl] at h
          simp only [] at h
          by_cases hxy : 256 * x + y ≠ 0
          · rw [if_pos hxy] at h
            simp at h
          · have hx : x = 0 ∧ y = 0 := by omega
            obtain ⟨rfl, rfl⟩ := hx
            subst hbs
            refine ⟨by simp, by simp; omega, ?_⟩
            intro b hb
            rcases List.mem_append.mp hb with hb | hb
            · exact List.eq_of_mem_replicate hb
            · simp at hb
              omega
        · rw [if_neg (show ¬ (t.length = 2) from ht2)] at h
          rw [exPure_eq_ok, exOk_bind] at h
          by_cases htz : t.length ≠ 0
          · rw [if_pos htz] at h
            simp at h
          · have ht0 : t = [] := List.length_eq_zero.mp (by omega)
            subst ht0
            subst hbs
            refine ⟨by simp at hlen ⊢; omega, by simp; omega, ?_⟩
            intro b hb
            simp at hb
            exact List.eq_of_mem_replicate (by simpa using hb)
  · rintro ⟨h2, heven, hz⟩
    have hbs : bs = List.replicate bs.length 0 := List.eq_replicate_of_mem hz
    rw [hbs]
    exact SmaPacketFooter.des_replicate_even bs.length (by omega) heven

theorem SmaEmMessage.desPayload_overflow (payload : List ObisValue)
    (hwf : ∀ o ∈ payload, o.Wf) :
    ∀ (left : Nat) (acc : List ObisValue), payload.length = left + 1 →
    SmaEmMessage.desPayload 4 left acc
        ((payload.map ObisValue.serBytes).flatten ++ be32 0) =
      .error (.PayloadTooLarge (acc.length + left + 1)) := by
  induction payload with
  | nil =>
    intro left acc hlen
    simp at hlen
  | cons o rest ih =>
    intro left acc hlen
    have ho : o.Wf := hwf o (by simp)
    have hrest : ∀ x ∈ rest, x.Wf := fun x hx => hwf x (by simp [hx])
    have hlo := ObisValue.serialized_len_ge ho.1
    have hcond : ((((o :: rest).map ObisValue.serBytes).flatten ++
        be32 0)).length - 4 ≥ ObisValue.LENGTH_MIN := by
      simp only [List.map_cons, List.flatten_cons, List.append_assoc,
        List.length_append, ObisValue.serBytes_length_obis ho.1,
        ObisValue.LENGTH_MIN]
      simp
      omega
    cases left with
    | zero =>
      have hr : rest = [] := by
        simp at hlen
        exact hlen
      subst hr
      rw [desPayload, if_pos hcond]
      simp only [List.map_cons, List.flatten_cons, List.append_assoc]
      rw [ObisValue.des_ser_obis o ho, exOk_bind, ObisValue.validate_ok ho.1,
        exOk_bind]
      rfl
    | succ l =>
      rw [desPayload, if_pos hcond]
      simp only [List.map_cons, List.flatten_cons, List.append_assoc]
      rw [ObisValue.des_ser_obis o ho, exOk_bind, ObisValue.validate_ok ho.1,
        exOk_bind]
      show SmaEmMessage.desPayload 4 l (acc ++ [o])
          ((List.map ObisValue.serBytes rest).flatten ++ be32 0) =
        Except.error (.PayloadTooLarge (acc.length + (l + 1) + 1))
      rw [ih hrest l (acc ++ [o]) (by simp at hlen ⊢; omega)]
      rw [show (acc ++ [o]).length + l + 1 = acc.length + (l + 1) + 1 from by
        simp; omega]

theorem SmaInvGetDayData.desRecords_overflow (records : List SmaInvMeterValue)
    (hwf : ∀ v ∈ records, v.Wf) :
    ∀ (left : Nat) (acc : List SmaInvMeterValue),
      records.length = left + 1 →
    SmaInvGetDayData.desRecords 4 left acc
        ((records.map SmaInvMeterValue.serBytes).flatten ++ be32 0) =
      .error (.PayloadTooLarge (acc.length + left + 1)) := by
  induction records with
  | nil =>
    intro left acc hlen
    simp at hlen
  | cons v rest ih =>
    intro left acc hlen
    have hv : v.Wf := hwf v (by simp)
    have hrest : ∀ x ∈ rest, x.Wf := fun x hx => hwf x (by simp [hx])
    have hcond :
        ((((v :: rest).map SmaInvMeterValue.serBytes).flatten ++
          be32 0)).length - 4 ≥ SmaInvMeterValue.LENGTH := by
      simp only [List.map_cons, List.flatten_cons, List.append_assoc,
        List.length_append, SmaInvMeterValue.serBytes_length_mv,
        SmaInvMeterValue.LENGTH]
      simp
      omega
    cases left with
    | zero =>
      have hr : rest = [] := by
        simp at hlen
        exact hlen
      subst hr
      rw [desRecords, if_pos hcond]
      simp only [List.map_cons, List.flatten_cons, List.append_assoc]
      rw [SmaInvMeterValue.des_ser_mv v hv, exOk_bind]
      rfl
    | succ l =>
      rw [desRecords, if_pos hcond]
      simp only [List.map_cons, List.flatten_cons, List.append_assoc]
      rw [SmaInvMeterValue.des_ser_mv v hv, exOk_bind]
      show SmaInvGetDayData.desRecords 4 l (acc ++ [v])
          ((List.map SmaInvMeterValue.serBytes rest).flatten ++ be32 0) =
        Except.error (.PayloadTooLarge (acc.length + (l + 1) + 1))
      rw [ih hrest l (acc ++ [v]) (by simp at hlen ⊢; omega)]
      rw [show (acc ++ [v]).length + l + 1 = acc.length + (l + 1) + 1 from by
        simp; omega]

theorem SmaEmMessage.des_overflow_em (m : SmaEmMessage) (hwf : m.Wf)
    (hcap : m.payload.length = 81) :
    SmaEmMessage.deserialize m.serBytes = .error (.PayloadTooLarge 81) := by
  obtain ⟨hsrc, hts, hpl⟩ := hwf
  have hser := m.serialized_len_eq_em
  have hS := sum_serialized_len_le m.payload
  have hflat := flatten_serBytes_length m.payload (fun o ho => (hpl o ho).1)
  have hsplit : m.serBytes =
      SmaPacketHeader.serBytes
          { data_len := 10 + (m.payload.map ObisValue.serialized_len).sum,
            protocol := 0x6069 } ++
        (SmaEmHeader.serBytes { src := m.src, timestamp_ms := m.timestamp_ms } ++
          ((m.payload.map ObisValue.serBytes).flatten ++ be32 0)) := by
    rw [serBytes]
    rw [show m.serialized_len - SmaPacketHeader.LENGTH -
        SmaPacketFooter.LENGTH =
        10 + (m.payload.map ObisValue.serialized_len).sum by simp; omega]
    simp [List.append_assoc]
  rw [deserialize, hsplit]
  have hmap := map_comp_length_serBytes m.payload (fun o ho => (hpl o ho).1)
  have hck1 : (32 : Nat) ≤
      (SmaPacketHeader.serBytes
          { data_len := 10 + (m.payload.map ObisValue.serialized_len).sum,
            protocol := 0x6069 } ++
        (SmaEmHeader.serBytes { src := m.src, timestamp_ms := m.timestamp_ms } ++
          ((m.payload.map ObisValue.serBytes).flatten ++ be32 0))).length := by
    simp; omega
  rw [show SmaEmMessage.LENGTH_MIN = 32 from rfl, checkRemaining_ok hck1,
    exOk_bind]
  rw [SmaPacketHeader.des_ser_ph _ (by simp only []; omega) (by norm_num)]
  simp only [exOk_bind]
  rw [show SmaPacketHeader.check_protocol
      { data_len := 10 + (m.payload.map ObisValue.serialized_len).sum,
        protocol := 0x6069 } SmaPacketHeader.SMA_PROTOCOL_EM = .ok () by
    rw [SmaPacketHeader.check_protocol]; simp]
  simp only [exOk_bind]
  have hck2 : 10 + (m.payload.map ObisValue.serialized_len).sum ≤
      (SmaEmHeader.serBytes { src := m.src, timestamp_ms := m.timestamp_ms } ++
        ((m.payload.map ObisValue.serBytes).flatten ++ be32 0)).length := by
    simp [hmap]
  rw [checkRemaining_ok hck2, exOk_bind]
  have hpad : (SmaEmHeader.serBytes
        { src := m.src, timestamp_ms := m.timestamp_ms } ++
      ((m.payload.map ObisValue.serBytes).flatten ++ be32 0)).length -
      (10 + (m.payload.map ObisValue.serialized_len).sum) = 4 := by
    simp [hmap]
    omega
  rw [hpad]
  rw [SmaEmHeader.des_ser_emh _ ⟨hsrc, hts⟩]
  simp only [exOk_bind]
  rw [SmaEmMessage.desPayload_overflow m.payload hpl MAX_RECORD_COUNT [] (by
    simp only [MAX_RECORD_COUNT]; omega)]
  rfl

theorem SmaInvGetDayData.des_overflow_gdd (m : SmaInvGetDayData) (hwf : m.Wf)
    (hcap : m.records.length = 82) :
    SmaInvGetDayData.deserialize m.serBytes =
      .error (.PayloadTooLarge 82) := by
  obtain ⟨h1, h2, h3, h4, h5, h6, h7⟩ := hwf
  have hser := m.serialized_len_eq_gdd
  have hflat := gdd_flatten_length m.records
  have hsplit : m.serBytes =
      SmaPacketHeader.serBytes
          { data_len := 36 + m.records.length * 12,
            protocol := SmaPacketHeader.SMA_PROTOCOL_INV } ++
        ((m.invHeader (36 + m.records.length * 12)).serBytes ++
          (le32 m.start_time_idx ++ (le32 m.end_time_idx ++
            ((m.records.map SmaInvMeterValue.serBytes).flatten ++
              be32 0)))) := by
    rw [serBytes]
    rw [show m.serialized_len - SmaPacketHeader.LENGTH -
        SmaPacketFooter.LENGTH = 36 + m.records.length * 12 by
      simp; omega]
    simp [List.append_assoc]
  rw [deserialize, hsplit]
  have hck1 : (58 : Nat) ≤
      (SmaPacketHeader.serBytes
          { data_len := 36 + m.records.length * 12,
            protocol := SmaPacketHeader.SMA_PROTOCOL_INV } ++
        ((m.invHeader (36 + m.records.length * 12)).serBytes ++
          (le32 m.start_time_idx ++ (le32 m.end_time_idx ++
            ((m.records.map SmaInvMeterValue.serBytes).flatten ++
              be32 0))))).length := by
    simp only [List.length_append, SmaPacketHeader.serBytes_length_ph,
      SmaInvHeader.serBytes_length_ih, le32_length, be32_length, hflat]
    omega
  rw [show SmaInvGetDayData.LENGTH_MIN = 58 from rfl,
    checkRemaining_ok hck1, exOk_bind]
  rw [SmaPacketHeader.des_ser_ph _ (by simp only []; omega) (by norm_num),
    exOk_bind]
  simp only []
  rw [SmaPacketHeader.check_protocol_ok rfl, exOk_bind]
  have hck2 : 36 + m.records.length * 12 ≤
      ((m.invHeader (36 + m.records.length * 12)).serBytes ++
        (le32 m.start_time_idx ++ (le32 m.end_time_idx ++
          ((m.records.map SmaInvMeterValue.serBytes).flatten ++
            be32 0)))).length := by
    simp only [List.length_append, SmaInvHeader.serBytes_length_ih,
      le32_length, be32_length, hflat]
    omega
  rw [checkRemaining_ok hck2, exOk_bind]
  have hpad : ((m.invHeader (36 + m.records.length * 12)).serBytes ++
        (le32 m.start_time_idx ++ (le32 m.end_time_idx ++
          ((m.records.map SmaInvMeterValue.serBytes).flatten ++
            be32 0)))).length - (36 + m.records.length * 12) = 4 := by
    simp only [List.length_append, SmaInvHeader.serBytes_length_ih,
      le32_length, be32_length, hflat]
    omega
  rw [hpad]
  rw [SmaInvHeader.des_ser_ih _
    ⟨by simp only [invHeader]; omega, by simp only [invHeader]; norm_num,
      by simp only [invHeader]; exact h1,
      by simp only [invHeader]; split <;> norm_num,
      by simp only [invHeader]; exact h2, by simp only [invHeader]; norm_num,
      by simp only [invHeader]; exact h3, by simp only [invHeader]; exact h4,
      by simp only [invHeader]; split <;> norm_num,
      by simp only [invHeader]; norm_num⟩, exOk_bind]
  rw [SmaInvHeader.check_wordcount_ok (by simp only [invHeader]; omega),
    exOk_bind]
  rw [SmaInvHeader.check_class_ok (by simp only [invHeader]), exOk_bind]
  rw [SmaInvHeader.check_opcode_ok (by simp only [invHeader]), exOk_bind]
  rw [rdU32LE_le32 h5, rdU32LE_le32 h6]
  rw [SmaInvGetDayData.desRecords_overflow m.records h7 MAX_RECORD_COUNT []
    (by simp only [MAX_RECORD_COUNT]; omega)]
  rfl

@[simp] theorem exBind_ok {ε α β : Type} (a : α) (f : α → Except ε β) :
    (Except.ok a).bind f = f a := rfl

@[simp] theorem exBind_error {ε α β : Type} (e : ε) (f : α → Except ε β) :
    (Except.error e).bind f = .error e := rfl

theorem gddLoop_run (rest : List SmaInvGetDayData) :
    ∀ (rx : Nat) (acc : List SmaInvMeterValue),
      (∀ g ∈ rest, g.counters.first_fragment = false ∧ g.error_code = 0) →
      rx + rest.length < 65536 →
      gddLoop { total_fragments := rx + rest.length, rx_fragments := rx,
                rx_first := true, records := acc } rest =
        .ok (some (acc ++ (rest.map SmaInvGetDayData.records).flatten)) := by
  induction rest with
  | nil =>
    intro rx acc _ _
    rw [gddLoop, if_pos ⟨by simp, rfl⟩]
    simp
  | cons g rest ih =>
    intro rx acc hg hlt
    rw [gddLoop, if_neg (by
      rintro ⟨hrx, -⟩
      simp at hrx)]
    have hgf := hg g (by simp)
    rw [gddStep]
    simp only [hgf.1, Bool.false_eq_true, if_false, reduceIte, exPure_eq_ok,
      exOk_bind]
    rw [if_neg (by simp [hgf.2])]
    simp only [exPure_eq_ok, exOk_bind, exBind_ok]
    rw [show (rx + 1) % 65536 = rx + 1 from by
      simp at hlt
      omega]
    rw [show rx + (g :: rest).length = (rx + 1) + rest.length from by
      simp
      omega]
    rw [ih (rx + 1) (acc ++ g.records)
      (fun x hx => hg x (by simp [hx])) (by simp at hlt ⊢; omega)]
    simp

theorem gddLoop_skip (pre : List SmaInvGetDayData) :
    ∀ (rest : List SmaInvGetDayData) (T k : Nat)
      (acc : List SmaInvMeterValue),
      (∀ g ∈ pre, g.counters.first_fragment = false ∧ g.error_code = 0) →
      k + pre.length < 65536 →
      gddLoop { total_fragments := T, rx_fragments := k, rx_first := false,
                records := acc } (pre ++ rest) =
        gddLoop { total_fragments := T, rx_fragments := k + pre.length,
                  rx_first := false,
                  records :=
                    acc ++ (pre.map SmaInvGetDayData.records).flatten }
          rest := by
  induction pre with
  | nil =>
    intro rest T k acc _ _
    simp
  | cons g pre ih =>
    intro rest T k acc hg hlt
    rw [List.cons_append, gddLoop, if_neg (by
      rintro ⟨-, hfalse⟩
      simp at hfalse)]
    have hgf := hg g (by simp)
    rw [gddStep]
    simp only [hgf.1, Bool.false_eq_true, if_false, reduceIte, exPure_eq_ok,
      exOk_bind]
    rw [if_neg (by simp [hgf.2])]
    simp only [exPure_eq_ok, exOk_bind, exBind_ok]
    rw [show (k + 1) % 65536 = k + 1 from by
      simp at hlt
      omega]
    rw [ih rest T (k + 1) (acc ++ g.records)
      (fun x hx => hg x (by simp [hx])) (by simp at hlt ⊢; omega)]
    rw [show k + 1 + pre.length = k + (pre.length + 1) from by omega]
    simp [List.append_assoc]

/-! The claim theorems: each states one claim of the specification over
the embedded definitions above. -/

/-- C1: for every well formed instance of each of the five message types
(energymeter payload at most 80 OBIS values, GetDayData at most 81
records, OBIS ids in the accepted families, counter packet ids below
0x8000), serializing into a large enough buffer and deserializing the
produced bytes returns exactly the original message. -/
theorem spec_roundtrip_every_message (em : SmaEmMessage)
    (idm : SmaInvIdentify) (lg : SmaInvLogin) (lo : SmaInvLogout)
    (gd : SmaInvGetDayData) (hem : em.Wf) (hem80 : em.payload.length ≤ 80)
    (hid : idm.Wf) (hlg : lg.Wf) (hlo : lo.Wf) (hgd : gd.Wf)
    (hgd81 : gd.records.length ≤ 81) :
    (em.serialize ⟨em.serialized_len, []⟩ >>= fun w =>
        SmaEmMessage.deserialize w.out) = .ok em ∧
    (idm.serialize ⟨SmaInvIdentify.LENGTH_MAX, []⟩ >>= fun w =>
        SmaInvIdentify.deserialize w.out) = .ok idm ∧
    (lg.serialize ⟨SmaInvLogin.LENGTH_MAX, []⟩ >>= fun w =>
        SmaInvLogin.deserialize w.out) = .ok lg ∧
    (lo.serialize ⟨SmaInvLogout.LENGTH, []⟩ >>= fun w =>
        SmaInvLogout.deserialize w.out) = .ok lo ∧
    (gd.serialize ⟨gd.serialized_len, []⟩ >>= fun w =>
        SmaInvGetDayData.deserialize w.out) = .ok gd := by
  refine ⟨?_, ?_, ?_, ?_, ?_⟩
  · rw [SmaEmMessage.serialize_eq_em em hem hem80 em.serialized_len le_rfl,
      exOk_bind]
    exact SmaEmMessage.des_ser_em em hem hem80
  · rw [SmaInvIdentify.serialize_eq_id idm hid SmaInvIdentify.LENGTH_MAX le_rfl,
      exOk_bind]
    exact SmaInvIdentify.des_ser_id idm hid
  · rw [SmaInvLogin.serialize_eq_login lg hlg SmaInvLogin.LENGTH_MAX le_rfl,
      exOk_bind]
    exact SmaInvLogin.des_ser_login lg hlg
  · rw [SmaInvLogout.serialize_eq_logout lo SmaInvLogout.LENGTH le_rfl, exOk_bind]
    exact SmaInvLogout.des_ser_logout lo hlo
  · rw [SmaInvGetDayData.serialize_eq_gdd gd hgd hgd81 gd.serialized_len le_rfl,
      exOk_bind]
    exact SmaInvGetDayData.des_ser_gdd gd hgd hgd81

/-- Witness for C1: the round trip of concrete sample messages of all five
types. -/
theorem spec_roundtrip_every_message_witness :
    (emSample.serialize ⟨emSample.serialized_len, []⟩ >>= fun w =>
        SmaEmMessage.deserialize w.out) = .ok emSample ∧
    (identifySample.serialize ⟨SmaInvIdentify.LENGTH_MAX, []⟩ >>= fun w =>
        SmaInvIdentify.deserialize w.out) = .ok identifySample ∧
    (loginSample.serialize ⟨SmaInvLogin.LENGTH_MAX, []⟩ >>= fun w =>
        SmaInvLogin.deserialize w.out) = .ok loginSample ∧
    (logoutSample.serialize ⟨SmaInvLogout.LENGTH, []⟩ >>= fun w =>
        SmaInvLogout.deserialize w.out) = .ok logoutSample ∧
    (gddSample.serialize ⟨gddSample.serialized_len, []⟩ >>= fun w =>
        SmaInvGetDayData.deserialize w.out) = .ok gddSample :=
  spec_roundtrip_every_message emSample identifySample loginSample
    logoutSample gddSample (by decide) (by decide) (by decide) (by decide)
    (by decide) (by decide) (by decide)

/-- C3: serializing then deserializing a counter with a 15 bit packet id
preserves all three fields, and a wire counter whose raw packet-id field
has bit 0x8000 set decodes to first_fragment true with the low 15 bits as
packet id. -/
theorem spec_counter_first_fragment_bit (c : SmaInvCounter) (hc : c.Wf)
    (f raw : Nat) (hf : f < 65536) (h1 : 32768 ≤ raw) (h2 : raw < 65536)
    (r : List Nat) :
    SmaInvCounter.deserialize (c.serBytes ++ r) = .ok (c, r) ∧
    SmaInvCounter.deserialize (le16 f ++ (le16 raw ++ r)) =
      .ok ({ fragment_id := f, packet_id := raw % 32768,
             first_fragment := true }, r) := by
  refine ⟨SmaInvCounter.des_ser_ctr c hc r, ?_⟩
  have hlen : (4 : Nat) ≤ (le16 f ++ (le16 raw ++ r)).length := by
    simp
    omega
  rw [SmaInvCounter.deserialize]
  simp [checkRemaining_ok hlen, rdU16LE_le16 hf, rdU16LE_le16 h2,
    and_bit15_of_ge h1 h2, and_mask15]

/-- Witness for C3: a concrete counter round trip and a concrete wire
field with the 0x8000 bit set. -/
theorem spec_counter_first_fragment_bit_witness :
    SmaInvCounter.deserialize
        (SmaInvCounter.serBytes { fragment_id := 1, packet_id := 2,
                                  first_fragment := false } ++ []) =
      .ok ({ fragment_id := 1, packet_id := 2, first_fragment := false },
           []) ∧
    SmaInvCounter.deserialize (le16 3 ++ (le16 0x8005 ++ [])) =
      .ok ({ fragment_id := 3, packet_id := 0x8005 % 32768,
             first_fragment := true }, []) :=
  spec_counter_first_fragment_bit
    { fragment_id := 1, packet_id := 2, first_fragment := false }
    (by decide) 3 0x8005 (by decide) (by decide) (by decide) []

/-- C5: OBIS validation accepts exactly the three id families; on both
the read and the write side a well formed value of an accepted family
round trips, and any other id produces UnsupportedObisId. -/
theorem spec_obis_id_families (o : ObisValue) :
    (o.validate = .ok () ↔
      (o.id = 0x90000000 ∨ o.id &&& 0xFF00 = 0x0400 ∨
        o.id &&& 0xFF00 = 0x0800)) ∧
    (¬ ObisValue.ValidId o.id →
      (∀ w, o.serialize w = .error (.UnsupportedObisId o.id)) ∧
      o.validate = .error (.UnsupportedObisId o.id)) ∧
    (o.Wf → ∀ r, ObisValue.deserialize (o.serBytes ++ r) = .ok (o, r)) ∧
    (o.Wf → ∀ cap out, out.length + o.serialized_len ≤ cap →
      o.serialize ⟨cap, out⟩ = .ok ⟨cap, out ++ o.serBytes⟩) ∧
    (∀ i r, ¬ ObisValue.ValidId i → i < 4294967296 → 4 ≤ r.length →
      ObisValue.deserialize (be32 i ++ r) = .error (.UnsupportedObisId i)) := by
  refine ⟨?_, ?_, ?_, ?_, ?_⟩
  · constructor
    · intro h
      by_contra hno
      rw [ObisValue.validate, if_neg hno] at h
      exact absurd h (by simp)
    · intro h
      exact ObisValue.validate_ok h
  · intro h
    exact ⟨fun w => ObisValue.serialize_invalid h w,
      by rw [ObisValue.validate,
        if_neg (show ¬ (o.id = 0x90000000 ∨ o.id &&& 0xFF00 = 0x0400 ∨
          o.id &&& 0xFF00 = 0x0800) from h)]⟩
  · intro hwf r
    exact ObisValue.des_ser_obis o hwf r
  · intro hwf cap out hb
    exact ObisValue.serialize_eq_obis o hwf cap out hb
  · intro i r h hi hr
    exact ObisValue.deserialize_invalid h hi r hr

/-- Witness for C5: a 32 bit family id round trips and the rejected id 5
fails on read. -/
theorem spec_obis_id_families_witness :
    ObisValue.deserialize
        (ObisValue.serBytes { id := 0x010400, value := 3 } ++ []) =
      .ok ({ id := 0x010400, value := 3 }, []) ∧
    ObisValue.deserialize (be32 5 ++ [0, 0, 0, 0]) =
      .error (.UnsupportedObisId 5) :=
  ⟨(spec_obis_id_families { id := 0x010400, value := 3 }).2.2.1 (by decide)
    [],
   (spec_obis_id_families { id := 0x010400, value := 3 }).2.2.2.2 5
    [0, 0, 0, 0] (by decide) (by decide) (by decide)⟩

/-- C9 (amended): for every 18 byte buffer with the expected constant
fields, decoding is total and returns the wire length field reduced by 2
with wrapping 16 bit arithmetic; the result equals the wire value minus 2
whenever that value is at least 2, while the values 0 and 1 wrap (a Rust
debug build panics on the underflow instead). -/
theorem spec_header_wire_data_len (v p : Nat) (hv : v < 65536)
    (hp : p < 65536) (r : List Nat) :
    SmaPacketHeader.deserialize
        (be32 0x534D4100 ++ be16 4 ++ be16 0x02A0 ++ be32 1 ++ be16 v ++
          be16 0x10 ++ be16 p ++ r) =
      .ok ({ data_len := (v + 65534) % 65536, protocol := p }, r) ∧
    (2 ≤ v → (v + 65534) % 65536 = v - 2) := by
  exact ⟨SmaPacketHeader.des_wire v p hv hp r, fun h2 => by omega⟩

/-- Witness for C9: a concrete header whose wire length field is 4. -/
theorem spec_header_wire_data_len_witness :
    SmaPacketHeader.deserialize
        (be32 0x534D4100 ++ be16 4 ++ be16 0x02A0 ++ be32 1 ++ be16 4 ++
          be16 0x10 ++ be16 0x6069 ++ []) =
      .ok ({ data_len := (4 + 65534) % 65536, protocol := 0x6069 }, []) ∧
    (4 + 65534) % 65536 = 4 - 2 :=
  ⟨(spec_header_wire_data_len 4 0x6069 (by decide) (by decide) []).1,
   (spec_header_wire_data_len 4 0x6069 (by decide) (by decide) []).2
     (by decide)⟩

/-- Counterexample for C9: a header whose wire length field is 0 decodes
with data_len 65534 rather than the claimed wire value minus 2, which
would be negative. -/
theorem spec_header_wire_data_len_counterexample :
    SmaPacketHeader.deserialize
        [0x53, 0x4D, 0x41, 0x00, 0x00, 0x04, 0x02, 0xA0, 0x00, 0x00, 0x00,
         0x01, 0x00, 0x00, 0x00, 0x10, 0x60, 0x69] =
      .ok ({ data_len := 65534, protocol := 0x6069 }, []) ∧
    ¬ ((65534 : Int) = (0 : Int) - 2) := by
  exact ⟨by decide, by decide⟩

/-- C10: pw_from_str looks only at the first 12 characters of the input:
it equals its own application to the truncated input, and a non-ASCII
character beyond position 12 cannot cause an error when the first 12
characters are ASCII. -/
theorem spec_pw_truncation (cs : List Nat) :
    SmaInvLogin.pw_from_str cs = SmaInvLogin.pw_from_str (cs.take 12) ∧
    ((∀ c ∈ cs.take 12, c < 128) →
      ∃ l, SmaInvLogin.pw_from_str cs = .ok l) := by
  constructor
  · rw [SmaInvLogin.pw_from_str, SmaInvLogin.pw_from_str]
    simp [List.take_take]
  · intro h
    refine ⟨cs.take 12 ++ List.replicate (12 - (cs.take 12).length) 0, ?_⟩
    rw [SmaInvLogin.pw_from_str]
    simp only [SmaInvLogin.PASSWORD_LEN]
    rw [pw_go_ok (cs.take 12) h]
    rfl

/-- Witness for C10: a 13 character input whose final character is
non-ASCII is truncated and accepted. -/
theorem spec_pw_truncation_witness :
    SmaInvLogin.pw_from_str (List.replicate 12 97 ++ [200]) =
      SmaInvLogin.pw_from_str ((List.replicate 12 97 ++ [200]).take 12) ∧
    ∃ l, SmaInvLogin.pw_from_str (List.replicate 12 97 ++ [200]) = .ok l :=
  ⟨(spec_pw_truncation (List.replicate 12 97 ++ [200])).1,
   (spec_pw_truncation (List.replicate 12 97 ++ [200])).2 (by decide)⟩

/-- C2 (amended): each password byte is obfuscated on serialize by adding
0x88 modulo 256 and recovered on deserialize by the inverse subtraction;
a password shorter than 12 characters is zero padded and the padding
serializes to 0x88; pw_from_str rejects a non-ASCII character among the
first 12 characters, later characters being ignored. -/
theorem spec_login_password_obfuscation (m : SmaInvLogin) (pw cs : List Nat)
    (hm : m.Wf) (hpw : m.password = some pw) (cap : Nat) (hcap : 78 ≤ cap) :
    (m.serialize ⟨cap, []⟩ = .ok ⟨cap, m.serBytes⟩ ∧
      ∃ prefix_bytes, prefix_bytes.length = 62 ∧
        m.serBytes = prefix_bytes ++
          (pw.map (fun c => (c + 0x88) % 256) ++ be32 0)) ∧
    SmaInvLogin.deserialize m.serBytes = .ok m ∧
    ((∀ c ∈ cs.take 12, c < 128) →
      SmaInvLogin.pw_from_str cs =
        .ok (cs.take 12 ++ List.replicate (12 - (cs.take 12).length) 0)) ∧
    ((∃ c ∈ cs.take 12, 128 ≤ c) →
      SmaInvLogin.pw_from_str cs = .error .mk) ∧
    (List.replicate (12 - (cs.take 12).length) 0).map
        (fun c => (c + 0x88) % 256) =
      List.replicate (12 - (cs.take 12).length) 0x88 := by
  refine ⟨⟨SmaInvLogin.serialize_eq_login m hm cap (by simpa using hcap), ?_⟩,
    SmaInvLogin.des_ser_login m hm, ?_, ?_, ?_⟩
  · refine ⟨SmaPacketHeader.serBytes
        { data_len := 56, protocol := SmaPacketHeader.SMA_PROTOCOL_INV } ++
        ((m.invHeader 56).serBytes ++ (le32 m.user_group ++
          (le32 m.timeout ++ (le32 m.timestamp ++ le32 0)))), by simp, ?_⟩
    rw [SmaInvLogin.serBytes]
    simp [hpw, List.append_assoc]
  · intro h
    rw [SmaInvLogin.pw_from_str]
    simp only [SmaInvLogin.PASSWORD_LEN]
    rw [pw_go_ok (cs.take 12) h]
    rfl
  · intro h
    rw [SmaInvLogin.pw_from_str]
    simp only [SmaInvLogin.PASSWORD_LEN]
    rw [pw_go_err (cs.take 12) h]
    rfl
  · simp

/-- Witness for C2: the concrete login request round trips through the
wire image. -/
theorem spec_login_password_obfuscation_witness :
    SmaInvLogin.deserialize loginSample.serBytes = .ok loginSample :=
  (spec_login_password_obfuscation loginSample (List.replicate 12 97) []
    (by decide) (by decide) 78 (by decide)).2.1

/-- Counterexample for C2: a non-ASCII character at position 13 is
accepted, where the claim predicts an InvalidPassword error. -/
theorem spec_login_password_obfuscation_counterexample :
    SmaInvLogin.pw_from_str (List.replicate 12 97 ++ [200]) =
      .ok (List.replicate 12 97) ∧
    (∃ c ∈ List.replicate 12 97 ++ [200], 128 ≤ c) := by
  exact ⟨by decide, by decide⟩

/-- C4 (amended): footer serialization writes exactly one 32 bit zero
word; decoding consumes the whole remainder and succeeds exactly on even
buffers of at least two all-zero bytes (so, any positive number of zero
words, or zero or more zero words followed by a 16 bit zero half word); a
non-zero leading word yields InvalidPadding and an odd all-zero remainder
yields BufferNotConsumed. -/
theorem spec_footer_padding (bs : List Nat) :
    (∀ cap out, out.length + 4 ≤ cap →
      SmaPacketFooter.serialize ⟨cap, out⟩ = .ok ⟨cap, out ++ be32 0⟩) ∧
    (SmaPacketFooter.deserialize bs = .ok () ↔
      2 ≤ bs.length ∧ bs.length % 2 = 0 ∧ ∀ b ∈ bs, b = 0) ∧
    (∀ w r, w ≠ 0 → w < 4294967296 →
      SmaPacketFooter.deserialize (be32 w ++ r) =
        .error (.InvalidPadding w)) ∧
    (∀ n, 2 ≤ n → n % 2 = 1 →
      SmaPacketFooter.deserialize (List.replicate n 0) =
        .error (.BufferNotConsumed (n % 4))) :=
  ⟨fun cap out h => SmaPacketFooter.serialize_eq_ft cap out h,
   SmaPacketFooter.des_ok_iff bs,
   fun w r h0 hw => SmaPacketFooter.des_nonzero_word w hw h0 r,
   fun n h2 ho => SmaPacketFooter.des_replicate_odd n h2 ho⟩

/-- Witness for C4: one zero word is written; six zero bytes decode; a
non-zero word and an odd zero tail fail. -/
theorem spec_footer_padding_witness :
    SmaPacketFooter.serialize ⟨4, []⟩ = .ok ⟨4, [] ++ be32 0⟩ ∧
    SmaPacketFooter.deserialize [0, 0, 0, 0, 0, 0] = .ok () ∧
    SmaPacketFooter.deserialize (be32 5 ++ []) = .error (.InvalidPadding 5) ∧
    SmaPacketFooter.deserialize (List.replicate 5 0) =
      .error (.BufferNotConsumed (5 % 4)) :=
  ⟨(spec_footer_padding []).1 4 [] (by decide),
   (spec_footer_padding [0, 0, 0, 0, 0, 0]).2.1.mpr (by decide),
   (spec_footer_padding []).2.2.1 5 [] (by decide) (by decide),
   (spec_footer_padding []).2.2.2 5 (by decide) (by decide)⟩

/-- Counterexample for C4: the empty remainder is rejected with
BufferTooSmall, although it consists of zero 32 bit zero words and no
half word. -/
theorem spec_footer_padding_counterexample :
    SmaPacketFooter.deserialize [] = .error (.BufferTooSmall 0 2) ∧
    SmaPacketFooter.deserialize [] ≠ .ok () := by
  exact ⟨by decide, by decide⟩

/-- C6: the encoders reject more than 80 energymeter records and more
than 81 GetDayData records with PayloadTooLarge; the decoders accept wire
payloads of exactly 80 and 81 records and fail with PayloadTooLarge on
one record more. -/
theorem spec_record_caps (em : SmaEmMessage) (gd : SmaInvGetDayData)
    (w : WCursor) (hem : em.payload.length > 80)
    (hgd : gd.records.length > 81) :
    em.serialize w = .error (.PayloadTooLarge em.payload.length) ∧
    gd.serialize w = .error (.PayloadTooLarge gd.records.length) ∧
    SmaEmMessage.deserialize (emWire 80) = .ok (emProbe 80) ∧
    SmaEmMessage.deserialize (emWire 81) = .error (.PayloadTooLarge 81) ∧
    SmaInvGetDayData.deserialize (gddWire 81) = .ok (gddProbe 81) ∧
    SmaInvGetDayData.deserialize (gddWire 82) =
      .error (.PayloadTooLarge 82) := by
  refine ⟨?_, ?_, ?_, ?_, ?_, ?_⟩
  · simp only [SmaEmMessage.serialize]
    rw [if_pos (by simp only [SmaEmMessage.MAX_RECORD_COUNT]; omega)]
    rfl
  · simp only [SmaInvGetDayData.serialize]
    rw [if_pos (by simp only [SmaInvGetDayData.MAX_RECORD_COUNT]; omega)]
    rfl
  · exact SmaEmMessage.des_ser_em (emProbe 80) (by decide) (by decide)
  · exact SmaEmMessage.des_overflow_em (emProbe 81) (by decide) (by decide)
  · exact SmaInvGetDayData.des_ser_gdd (gddProbe 81) (by decide) (by decide)
  · exact SmaInvGetDayData.des_overflow_gdd (gddProbe 82) (by decide) (by decide)

/-- Witness for C6: the cap behavior at the concrete probe messages with
81 and 82 records. -/
theorem spec_record_caps_witness :
    (emProbe 81).serialize ⟨0, []⟩ =
      .error (.PayloadTooLarge (emProbe 81).payload.length) ∧
    (gddProbe 82).serialize ⟨0, []⟩ =
      .error (.PayloadTooLarge (gddProbe 82).records.length) ∧
    SmaEmMessage.deserialize (emWire 80) = .ok (emProbe 80) ∧
    SmaEmMessage.deserialize (emWire 81) = .error (.PayloadTooLarge 81) ∧
    SmaInvGetDayData.deserialize (gddWire 81) = .ok (gddProbe 81) ∧
    SmaInvGetDayData.deserialize (gddWire 82) =
      .error (.PayloadTooLarge 82) :=
  spec_record_caps (emProbe 81) (gddProbe 82) ⟨0, []⟩ (by decide) (by decide)

/-- C8: in the GetDayData reassembly loop, the first fragment observed
with the first-fragment flag sets total_fragments to its fragment id plus
one; a second flagged fragment fails with ExtraSofPacket; any fragment
with a non-zero error code fails with DeviceError (unless it is a
duplicate first fragment, which fails with ExtraSofPacket first); an
unflagged error-free fragment only counts and accumulates; the loop
returns exactly when the received count equals total_fragments after the
first-fragment marker was seen, and for a complete run, with the flagged
fragment at any arrival position, the delivered record list is the
concatenation of the fragments' records in arrival order. -/
theorem spec_gdd_reassembly (st : GddLoopState) (resp f : SmaInvGetDayData)
    (pre post frags : List SmaInvGetDayData) :
    (resp.counters.first_fragment = true → st.rx_first = false →
      resp.error_code = 0 → st.rx_fragments + 1 < 65536 →
      resp.counters.fragment_id + 1 < 65536 →
      gddStep st resp = .ok
        { total_fragments := resp.counters.fragment_id + 1,
          rx_fragments := st.rx_fragments + 1, rx_first := true,
          records := st.records ++ resp.records }) ∧
    (resp.counters.first_fragment = true → st.rx_first = true →
      gddStep st resp = .error (.ExtraSofPacket resp.counters)) ∧
    (resp.error_code ≠ 0 →
      ¬ (resp.counters.first_fragment = true ∧ st.rx_first = true) →
      gddStep st resp = .error (.DeviceError resp.error_code)) ∧
    (resp.counters.first_fragment = false → resp.error_code = 0 →
      gddStep st resp = .ok
        { st with rx_fragments := (st.rx_fragments + 1) % 65536,
                  records := st.records ++ resp.records }) ∧
    (st.rx_fragments = st.total_fragments → st.rx_first = true →
      gddLoop st frags = .ok (some st.records)) ∧
    (¬ (st.rx_fragments = st.total_fragments ∧ st.rx_first = true) →
      gddLoop st [] = .ok none) ∧
    ((∀ g ∈ pre, g.counters.first_fragment = false ∧ g.error_code = 0) →
      f.counters.first_fragment = true → f.error_code = 0 →
      (∀ g ∈ post, g.counters.first_fragment = false ∧ g.error_code = 0) →
      f.counters.fragment_id + 1 = pre.length + 1 + post.length →
      pre.length + 1 + post.length < 65536 →
      gddRun (pre ++ f :: post) =
        .ok (some (((pre ++ f :: post).map
          SmaInvGetDayData.records).flatten))) := by
  refine ⟨?_, ?_, ?_, ?_, ?_, ?_, ?_⟩
  · intro hff hfirst herr hrx hfr
    rw [gddStep]
    simp only [hff, hfirst, Bool.false_eq_true, not_false_iff, if_true,
      reduceIte, exPure_eq_ok, exOk_bind]
    rw [if_neg (by simp [herr])]
    rw [Nat.mod_eq_of_lt hrx, Nat.mod_eq_of_lt hfr]
  · intro hff hfirst
    rw [gddStep]
    simp only [hff, hfirst, reduceIte, exPure_eq_ok, exOk_bind]
    rfl
  · intro herr hnot
    rw [gddStep]
    cases hb : resp.counters.first_fragment with
    | false =>
      simp only [hb, Bool.false_eq_true, if_false, reduceIte, exPure_eq_ok,
        exOk_bind]
      rw [if_pos herr]
      rfl
    | true =>
      have hfirst : st.rx_first = false := by
        cases hst : st.rx_first
        · rfl
        · exact absurd ⟨hb, hst⟩ hnot
      simp only [hb, hfirst, Bool.false_eq_true, not_false_iff, if_true,
        reduceIte, exPure_eq_ok, exOk_bind]
      rw [if_pos herr]
      rfl
  · intro hff herr
    rw [gddStep]
    simp only [hff, Bool.false_eq_true, if_false, reduceIte, exPure_eq_ok,
      exOk_bind]
    rw [if_neg (by simp [herr])]
  · intro hrx hfirst
    rw [gddLoop.eq_def]
    simp only []
    rw [if_pos ⟨hrx, hfirst⟩]
  · intro h
    rw [gddLoop, if_neg h]
  · intro hpre hff herr hpost hfid hlen
    rw [gddRun, show gddInit =
      ({ total_fragments := 0, rx_fragments := 0, rx_first := false,
         records := [] } : GddLoopState) from rfl]
    rw [gddLoop_skip pre (f :: post) 0 0 [] hpre (by omega)]
    rw [gddLoop, if_neg (by rintro ⟨-, hfalse⟩; simp at hfalse)]
    rw [gddStep]
    simp only [hff, Bool.false_eq_true, not_false_iff, if_true, reduceIte,
      exPure_eq_ok, exOk_bind]
    rw [if_neg (by simp [herr])]
    simp only [exPure_eq_ok, exOk_bind, exBind_ok]
    rw [hfid, Nat.mod_eq_of_lt hlen]
    rw [show (0 + pre.length + 1) % 65536 = pre.length + 1 from by omega]
    rw [show pre.length + 1 + post.length = (pre.length + 1) + post.length
      from rfl]
    rw [gddLoop_run post (pre.length + 1)
      (([] ++ (pre.map SmaInvGetDayData.records).flatten) ++ f.records)
      hpost (by omega)]
    simp

/-- Witness for C8: a complete run whose flagged fragment arrives last
delivers the concatenated records, and an erroring flagged first arrival
fails with DeviceError. -/
theorem spec_gdd_reassembly_witness :
    gddRun ([gddSample2] ++ gddSample :: []) =
      .ok (some ((([gddSample2] ++ gddSample :: []).map
        SmaInvGetDayData.records).flatten)) ∧
    gddStep gddInit { gddSample with error_code := 3 } =
      .error (.DeviceError 3) :=
  ⟨(spec_gdd_reassembly gddInit gddSample gddSample [gddSample2] []
      []).2.2.2.2.2.2 (by decide) (by decide) (by decide) (by decide)
      (by decide) (by decide),
   (spec_gdd_reassembly gddInit { gddSample with error_code := 3 } gddSample
      [] [] []).2.2.1 (by decide) (by decide)⟩

/-- C7 (amended): the any-message decoder first requires 18 bytes, then
checks the fourCC, then dispatches on the protocol tag at offset 16: the
energymeter protocol goes to the energymeter decoder; the inverter
protocol requires 46 bytes and dispatches on the 24 bit opcode at offset
43 to the GetDayData, Identify, Login or Logout decoder; unknown opcodes
and protocols are rejected. -/
theorem spec_any_dispatch (bs : List Nat) :
    (bs.length < 18 →
      AnySmaMessage.deserialize bs =
        .error (.BufferTooSmall bs.length 18)) ∧
    (18 ≤ bs.length → peekU32BE bs 0 ≠ 0x534D4100 →
      AnySmaMessage.deserialize bs =
        .error (.InvalidFourCC (peekU32BE bs 0))) ∧
    (18 ≤ bs.length → peekU32BE bs 0 = 0x534D4100 →
      peekU16BE bs 16 = 0x6069 →
      AnySmaMessage.deserialize bs =
        (SmaEmMessage.deserialize bs).map .EmMessage) ∧
    (18 ≤ bs.length → peekU32BE bs 0 = 0x534D4100 →
      peekU16BE bs 16 = 0x6065 → bs.length < 46 →
      AnySmaMessage.deserialize bs =
        .error (.BufferTooSmall bs.length 46)) ∧
    (18 ≤ bs.length → peekU32BE bs 0 = 0x534D4100 →
      peekU16BE bs 16 = 0x6065 → 46 ≤ bs.length →
      ((peekU24BE bs 43 = 0x020070 →
        AnySmaMessage.deserialize bs =
          (SmaInvGetDayData.deserialize bs).map .InvGetDayData) ∧
       (peekU24BE bs 43 = 0x020000 →
        AnySmaMessage.deserialize bs =
          (SmaInvIdentify.deserialize bs).map .InvIdentify) ∧
       (peekU24BE bs 43 = 0x04FDFF →
        AnySmaMessage.deserialize bs =
          (SmaInvLogin.deserialize bs).map .InvLogin) ∧
       (peekU24BE bs 43 = 0x01FDFF →
        AnySmaMessage.deserialize bs =
          (SmaInvLogout.deserialize bs).map .InvLogout) ∧
       (peekU24BE bs 43 ≠ 0x020070 → peekU24BE bs 43 ≠ 0x020000 →
        peekU24BE bs 43 ≠ 0x04FDFF → peekU24BE bs 43 ≠ 0x01FDFF →
        AnySmaMessage.deserialize bs =
          .error (.UnsupportedOpcode (peekU24BE bs 43))))) ∧
    (18 ≤ bs.length → peekU32BE bs 0 = 0x534D4100 →
      peekU16BE bs 16 ≠ 0x6069 → peekU16BE bs 16 ≠ 0x6065 →
      AnySmaMessage.deserialize bs =
        .error (.UnsupportedProtocol (peekU16BE bs 16))) := by
  refine ⟨?_, ?_, ?_, ?_, ?_, ?_⟩
  · intro h1
    rw [AnySmaMessage.deserialize]
    simp only [SmaPacketHeader.LENGTH, SmaInvHeader.LENGTH,
      SmaPacketHeader.SMA_FOURCC, SmaPacketHeader.SMA_PROTOCOL_EM,
      SmaPacketHeader.SMA_PROTOCOL_INV, SmaInvGetDayData.OPCODE,
      SmaInvIdentify.OPCODE, SmaInvLogin.OPCODE, SmaInvLogout.OPCODE]
    rw [checkRemaining, if_pos h1]
    rfl
  · intro h18 hF
    rw [AnySmaMessage.deserialize]
    simp only [SmaPacketHeader.LENGTH, SmaInvHeader.LENGTH,
      SmaPacketHeader.SMA_FOURCC, SmaPacketHeader.SMA_PROTOCOL_EM,
      SmaPacketHeader.SMA_PROTOCOL_INV, SmaInvGetDayData.OPCODE,
      SmaInvIdentify.OPCODE, SmaInvLogin.OPCODE, SmaInvLogout.OPCODE]
    rw [checkRemaining_ok h18, exOk_bind, if_pos hF]
    rfl
  · intro h18 hF hP
    rw [AnySmaMessage.deserialize]
    simp only [SmaPacketHeader.LENGTH, SmaInvHeader.LENGTH,
      SmaPacketHeader.SMA_FOURCC, SmaPacketHeader.SMA_PROTOCOL_EM,
      SmaPacketHeader.SMA_PROTOCOL_INV, SmaInvGetDayData.OPCODE,
      SmaInvIdentify.OPCODE, SmaInvLogin.OPCODE, SmaInvLogout.OPCODE]
    rw [checkRemaining_ok h18, exOk_bind,
      if_neg (not_not_intro hF), exPure_eq_ok, exOk_bind, if_pos hP]
    cases hX : SmaEmMessage.deserialize bs <;> rfl
  · intro h18 hF hP h46
    rw [AnySmaMessage.deserialize]
    simp only [SmaPacketHeader.LENGTH, SmaInvHeader.LENGTH,
      SmaPacketHeader.SMA_FOURCC, SmaPacketHeader.SMA_PROTOCOL_EM,
      SmaPacketHeader.SMA_PROTOCOL_INV, SmaInvGetDayData.OPCODE,
      SmaInvIdentify.OPCODE, SmaInvLogin.OPCODE, SmaInvLogout.OPCODE]
    rw [checkRemaining_ok h18, exOk_bind,
      if_neg (not_not_intro hF), exPure_eq_ok, exOk_bind,
      if_neg (by simp [hP]), if_pos hP]
    rw [checkRemaining, if_pos (show bs.length < 46 from h46)]
    rfl
  · intro h18 hF hP h46
    refine ⟨?_, ?_, ?_, ?_, ?_⟩
    · intro hO
      rw [AnySmaMessage.deserialize]
      simp only [SmaPacketHeader.LENGTH, SmaInvHeader.LENGTH,
        SmaPacketHeader.SMA_FOURCC, SmaPacketHeader.SMA_PROTOCOL_EM,
        SmaPacketHeader.SMA_PROTOCOL_INV, SmaInvGetDayData.OPCODE,
        SmaInvIdentify.OPCODE, SmaInvLogin.OPCODE, SmaInvLogout.OPCODE]
      rw [checkRemaining_ok h18, exOk_bind,
        if_neg (not_not_intro hF), exPure_eq_ok, exOk_bind,
        if_neg (by simp [hP]), if_pos hP]
      rw [checkRemaining_ok (show (46 : Nat) ≤ bs.length from h46),
        exOk_bind, if_pos hO]
      cases hX : SmaInvGetDayData.deserialize bs <;> rfl
    · intro hO
      rw [AnySmaMessage.deserialize]
      simp only [SmaPacketHeader.LENGTH, SmaInvHeader.LENGTH,
        SmaPacketHeader.SMA_FOURCC, SmaPacketHeader.SMA_PROTOCOL_EM,
        SmaPacketHeader.SMA_PROTOCOL_INV, SmaInvGetDayData.OPCODE,
        SmaInvIdentify.OPCODE, SmaInvLogin.OPCODE, SmaInvLogout.OPCODE]
      rw [checkRemaining_ok h18, exOk_bind,
        if_neg (not_not_intro hF), exPure_eq_ok, exOk_bind,
        if_neg (by simp [hP]), if_pos hP]
      rw [checkRemaining_ok (show (46 : Nat) ≤ bs.length from h46),
        exOk_bind, if_neg (by simp [hO]), if_pos hO]
      cases hX : SmaInvIdentify.deserialize bs <;> rfl
    · intro hO
      rw [AnySmaMessage.deserialize]
      simp only [SmaPacketHeader.LENGTH, SmaInvHeader.LENGTH,
        SmaPacketHeader.SMA_FOURCC, SmaPacketHeader.SMA_PROTOCOL_EM,
        SmaPacketHeader.SMA_PROTOCOL_INV, SmaInvGetDayData.OPCODE,
        SmaInvIdentify.OPCODE, SmaInvLogin.OPCODE, SmaInvLogout.OPCODE]
      rw [checkRemaining_ok h18, exOk_bind,
        if_neg (not_not_intro hF), exPure_eq_ok, exOk_bind,
        if_neg (by simp [hP]), if_pos hP]
      rw [checkRemaining_ok (show (46 : Nat) ≤ bs.length from h46),
        exOk_bind, if_neg (by simp [hO]), if_neg (by simp [hO]),
        if_pos hO]
      cases hX : SmaInvLogin.deserialize bs <;> rfl
    · intro hO
      rw [AnySmaMessage.deserialize]
      simp only [SmaPacketHeader.LENGTH, SmaInvHeader.LENGTH,
        SmaPacketHeader.SMA_FOURCC, SmaPacketHeader.SMA_PROTOCOL_EM,
        SmaPacketHeader.SMA_PROTOCOL_INV, SmaInvGetDayData.OPCODE,
        SmaInvIdentify.OPCODE, SmaInvLogin.OPCODE, SmaInvLogout.OPCODE]
      rw [checkRemaining_ok h18, exOk_bind,
        if_neg (not_not_intro hF), exPure_eq_ok, exOk_bind,
        if_neg (by simp [hP]), if_pos hP]
      rw [checkRemaining_ok (show (46 : Nat) ≤ bs.length from h46),
        exOk_bind, if_neg (by simp [hO]), if_neg (by simp [hO]),
        if_neg (by simp [hO]), if_pos hO]
      cases hX : SmaInvLogout.deserialize bs <;> rfl
    · intro hO1 hO2 hO3 hO4
      rw [AnySmaMessage.deserialize]
      simp only [SmaPacketHeader.LENGTH, SmaInvHeader.LENGTH,
        SmaPacketHeader.SMA_FOURCC, SmaPacketHeader.SMA_PROTOCOL_EM,
        SmaPacketHeader.SMA_PROTOCOL_INV, SmaInvGetDayData.OPCODE,
        SmaInvIdentify.OPCODE, SmaInvLogin.OPCODE, SmaInvLogout.OPCODE]
      rw [checkRemaining_ok h18, exOk_bind,
        if_neg (not_not_intro hF), exPure_eq_ok, exOk_bind,
        if_neg (by simp [hP]), if_pos hP]
      rw [checkRemaining_ok (show (46 : Nat) ≤ bs.length from h46),
        exOk_bind, if_neg hO1, if_neg hO2, if_neg hO3, if_neg hO4]
      rfl
  · intro h18 hF hP1 hP2
    rw [AnySmaMessage.deserialize]
    simp only [SmaPacketHeader.LENGTH, SmaInvHeader.LENGTH,
      SmaPacketHeader.SMA_FOURCC, SmaPacketHeader.SMA_PROTOCOL_EM,
      SmaPacketHeader.SMA_PROTOCOL_INV, SmaInvGetDayData.OPCODE,
      SmaInvIdentify.OPCODE, SmaInvLogin.OPCODE, SmaInvLogout.OPCODE]
    rw [checkRemaining_ok h18, exOk_bind,
      if_neg (not_not_intro hF), exPure_eq_ok, exOk_bind,
      if_neg hP1, if_neg hP2]
    rfl

/-- Witness for C7: the energymeter probe wire datagram dispatches to the
energymeter decoder. -/
theorem spec_any_dispatch_witness :
    AnySmaMessage.deserialize (emWire 0) =
      (SmaEmMessage.deserialize (emWire 0)).map .EmMessage :=
  (spec_any_dispatch (emWire 0)).2.2.1 (by decide) (by decide) (by decide)

/-- Counterexample for C7: a 17 byte all-zero buffer has a wrong fourCC,
yet decoding reports BufferTooSmall rather than the claimed
InvalidFourCC. -/
theorem spec_any_dispatch_counterexample :
    AnySmaMessage.deserialize (List.replicate 17 0) =
      .error (.BufferTooSmall 17 18) ∧
    peekU32BE (List.replicate 17 0) 0 ≠ 0x534D4100 ∧
    AnySmaMessage.deserialize (List.replicate 17 0) ≠
      .error (.InvalidFourCC (peekU32BE (List.replicate 17 0) 0)) := by
  exact ⟨by decide, by decide, by decide⟩

end SmaProto
